import Mathlib

/-!
# Verification of the pm-intelligence resource-coordination core

Shallow embedding of the three components in
`src/pm_intelligence/utils/` — `resource_manager.py` (RateLimiter,
ResourceManager), `batch_processor.py` (BatchProcessor) and
`cache_manager.py` (L1/L2/L3 caches, CacheManager) — together with
theorems settling the spec claims about them.

Modelling conventions:
* Python floats are modelled as rationals (ℚ); Python ints as `Nat`/`Int`.
* `time.time()` is passed in explicitly as a `now` argument; an
  `asyncio.sleep(w)` inside `RateLimiter.acquire` is idealised as
  advancing the clock by exactly `w`.
* Python dicts are association lists (`List (String × α)`); insertion
  order is preserved where iteration order matters.
* A Python value (as stored in caches) is the inductive `PyVal`;
  `PyVal.none` is Python's `None`.  JSON (de)serialisation used by the
  L2/L3 tiers is `dumps`/`loads` below.
-/

namespace PM

/-- Association-list lookup (Python `dict.get`). -/
def alookup {α : Type} (l : List (String × α)) (k : String) : Option α :=
  match l with
  | [] => Option.none
  | (k', v) :: rest => if k' = k then some v else alookup rest k

/-- Remove the entry for a key (`dict.pop`); the association list models
a Python dict, whose keys are unique. -/
def aerase {α : Type} (l : List (String × α)) (k : String) : List (String × α) :=
  match l with
  | [] => []
  | (k', v) :: rest => if k' = k then aerase rest k else (k', v) :: aerase rest k

theorem alookup_aerase_self {α : Type} (l : List (String × α)) (k : String) :
    alookup (aerase l k) k = Option.none := by
  induction l with
  | nil => simp [aerase, alookup]
  | cons hd tl ih =>
      obtain ⟨k', v⟩ := hd
      by_cases h : k' = k <;> simp [aerase, alookup, h, ih]

theorem alookup_aerase_ne {α : Type} (l : List (String × α)) (k c : String)
    (h : k ≠ c) : alookup (aerase l k) c = alookup l c := by
  induction l with
  | nil => simp [aerase, alookup]
  | cons hd tl ih =>
      obtain ⟨k', v⟩ := hd
      by_cases hk : k' = k
      · subst hk
        simp [aerase, alookup, h, ih]
      · simp [aerase, alookup, hk, ih]

/-- Upsert: replace the value at a key in place, or append a new entry. -/
def aupsert {α : Type} (l : List (String × α)) (k : String) (v : α) :
    List (String × α) :=
  match l with
  | [] => [(k, v)]
  | (k', v') :: rest =>
      if k' = k then (k', v) :: rest else (k', v') :: aupsert rest k v

theorem alookup_aupsert_self {α : Type} (l : List (String × α)) (k : String) (v : α) :
    alookup (aupsert l k v) k = some v := by
  induction l with
  | nil => simp [aupsert, alookup]
  | cons hd tl ih =>
      obtain ⟨k', v'⟩ := hd
      by_cases h : k' = k <;> simp [aupsert, alookup, h, ih]

theorem alookup_aupsert_ne {α : Type} (l : List (String × α)) (k k' : String)
    (v : α) (h : k ≠ k') :
    alookup (aupsert l k v) k' = alookup l k' := by
  induction l with
  | nil => simp [aupsert, alookup, h]
  | cons hd tl ih =>
      obtain ⟨k₀, v₀⟩ := hd
      by_cases hk : k₀ = k
      · subst hk
        simp [aupsert, alookup, h]
      · simp [aupsert, alookup, hk, ih]

/-! ## RateLimiter (`resource_manager.py`, lines 23–110)

Token-bucket rate limiter.  `rate = requests_per_minute / 60.0`,
`tokens` starts at `burst_size`. -/

structure RateLimiter where
  rate : ℚ
  burst_size : Nat
  tokens : ℚ
  last_update : ℚ
  total_requests : Nat
  rejected_requests : Nat
  wait_times : List ℚ          -- most recent first; deque(maxlen=1000)
  deriving Repr, DecidableEq

namespace RateLimiter

/-- `RateLimiter.__init__`. -/
def init (requests_per_minute : Int) (burst_size : Nat) (now : ℚ) : RateLimiter :=
  { rate := (requests_per_minute : ℚ) / 60
    burst_size := burst_size
    tokens := (burst_size : ℚ)
    last_update := now
    total_requests := 0
    rejected_requests := 0
    wait_times := [] }

/-- deque(maxlen=1000) append, kept most-recent-first. -/
def pushWait (l : List ℚ) (w : ℚ) : List ℚ := w :: l.take 999

/-- `RateLimiter.acquire(tokens)`: lazy refill capped at `burst_size`;
either deduct and return wait 0, or sleep `deficit / rate`, pin the
token level at 0 and return the wait.  The sleep is idealised as exact:
`last_update` advances to `now + wait`. -/
def acquire (r : RateLimiter) (now : ℚ) (n : Nat) : RateLimiter × ℚ :=
  let elapsed := now - r.last_update
  let tokens := min (r.burst_size : ℚ) (r.tokens + elapsed * r.rate)
  let r := { r with tokens := tokens, last_update := now,
                    total_requests := r.total_requests + 1 }
  if (n : ℚ) ≤ tokens then
    ({ r with tokens := tokens - n, wait_times := pushWait r.wait_times 0 }, 0)
  else
    let deficit := (n : ℚ) - tokens
    let wait_time := deficit / r.rate
    ({ r with tokens := 0, last_update := now + wait_time,
              wait_times := pushWait r.wait_times wait_time }, wait_time)

/-- `RateLimiter.try_acquire(tokens)`: refill, then deduct-and-succeed
or count a rejection and fail; never suspends. -/
def tryAcquire (r : RateLimiter) (now : ℚ) (n : Nat) : RateLimiter × Bool :=
  let elapsed := now - r.last_update
  let tokens := min (r.burst_size : ℚ) (r.tokens + elapsed * r.rate)
  let r := { r with tokens := tokens, last_update := now,
                    total_requests := r.total_requests + 1 }
  if (n : ℚ) ≤ tokens then
    ({ r with tokens := tokens - n }, true)
  else
    ({ r with rejected_requests := r.rejected_requests + 1 }, false)

end RateLimiter

/-- The property bundle of claim C5, parameterised by the concrete
inputs: token bounds after one `acquire` and one `tryAcquire` from an
arbitrary state, and the drain/exhaustion scenario on a fresh limiter. -/
def RateLimiterC5Prop (r : RateLimiter) (now : ℚ) (n : Nat)
    (rpm : Int) (B req : Nat) (t0 : ℚ) : Prop :=
  (0 ≤ (r.acquire now n).1.tokens ∧
     (r.acquire now n).1.tokens ≤ (r.burst_size : ℚ)) ∧
  (0 ≤ (r.tryAcquire now n).1.tokens ∧
     (r.tryAcquire now n).1.tokens ≤ (r.burst_size : ℚ)) ∧
  (((RateLimiter.init rpm B t0).acquire t0 B).1.tokens = 0 ∧
     ((RateLimiter.init rpm B t0).acquire t0 B).2 = 0) ∧
  ((((RateLimiter.init rpm B t0).acquire t0 B).1.acquire t0 req).2
      = (req : ℚ) / ((rpm : ℚ) / 60) ∧
   0 < (((RateLimiter.init rpm B t0).acquire t0 B).1.acquire t0 req).2 ∧
   (((RateLimiter.init rpm B t0).acquire t0 B).1.acquire t0 req).1.tokens = 0)

/-- **C5** — For every RateLimiter with rate R = rpm/60 and burst size B,
the token level stays within [0, B] after every `acquire` and
`try_acquire`; after draining B tokens instantly from a fresh limiter
the bucket is exhausted (tokens = 0, wait 0), and the next `acquire(req)`
incurs a strictly positive wait of `deficit / R = req / R` and leaves the
tokens pinned at 0. -/
theorem rateLimiter_bounds_and_exhaustion (r : RateLimiter) (now : ℚ) (n : Nat)
    (rpm : Int) (B req : Nat) (t0 : ℚ) (hrpm : 0 < rpm) (hreq : 1 ≤ req)
    (htok : 0 ≤ r.tokens) (hrte : 0 ≤ r.rate) (hnow : r.last_update ≤ now) :
    RateLimiterC5Prop r now n rpm B req t0 := by
  have hrate : (0 : ℚ) < (rpm : ℚ) / 60 := by positivity
  have hminle : min (r.burst_size : ℚ) (r.tokens + (now - r.last_update) * r.rate)
      ≤ (r.burst_size : ℚ) := min_le_left _ _
  have hmin0 : 0 ≤ min (r.burst_size : ℚ) (r.tokens + (now - r.last_update) * r.rate) := by
    have : (0 : ℚ) ≤ (now - r.last_update) * r.rate := by
      apply mul_nonneg <;> linarith
    have : (0 : ℚ) ≤ r.tokens + (now - r.last_update) * r.rate := by linarith
    exact le_min (by exact_mod_cast Nat.cast_nonneg r.burst_size) this
  have hn0 : (0 : ℚ) ≤ (n : ℚ) := Nat.cast_nonneg n
  refine ⟨?_, ?_, ?_, ?_⟩
  · -- token bounds after acquire
    simp only [RateLimiter.acquire]
    split
    · next h => exact ⟨by simp only; linarith, by simp only; linarith⟩
    · exact ⟨le_refl 0, by exact_mod_cast Nat.cast_nonneg r.burst_size⟩
  · -- token bounds after try_acquire
    simp only [RateLimiter.tryAcquire]
    split
    · next h => exact ⟨by simp only; linarith, by simp only; linarith⟩
    · exact ⟨hmin0, hminle⟩
  · -- draining B tokens from a fresh limiter succeeds with wait 0
    simp [RateLimiter.acquire, RateLimiter.init]
  · -- the next acquire waits req / rate > 0 and pins tokens at 0
    have hreqne : ¬ (req = 0) := by omega
    simp [RateLimiter.acquire, RateLimiter.init, hreqne]
    positivity

/-- Witness for C5: rpm = 60 (rate 1 token/s), burst 10, a limiter probed
at time 1 with n = 3, and the drain/exhaust scenario with req = 2. -/
theorem rateLimiter_bounds_and_exhaustion_witness :
    (0 : Int) < 60 ∧ (1 : Nat) ≤ 2 ∧ 0 ≤ (RateLimiter.init 60 10 0).tokens ∧
    0 ≤ (RateLimiter.init 60 10 0).rate ∧ (RateLimiter.init 60 10 0).last_update ≤ 1 ∧
    RateLimiterC5Prop (RateLimiter.init 60 10 0) 1 3 60 10 2 0 :=
  ⟨by norm_num, by norm_num, by norm_num [RateLimiter.init],
   by norm_num [RateLimiter.init], by norm_num [RateLimiter.init],
   rateLimiter_bounds_and_exhaustion (RateLimiter.init 60 10 0) 1 3 60 10 2 0
     (by norm_num) (by norm_num) (by norm_num [RateLimiter.init])
     (by norm_num [RateLimiter.init]) (by norm_num [RateLimiter.init])⟩

/-! ## ResourceManager (`resource_manager.py`, lines 113–360)

Admission gates (asyncio.Semaphore, modelled by its free-slot counter),
per-class rate limiters, and per-class usage statistics
(a `defaultdict`, modelled by `getD UsageStats.init`). -/

structure UsageStats where
  active : Nat
  total_acquired : Nat
  total_wait_time : ℚ
  max_concurrent : Nat
  deriving Repr, DecidableEq

/-- The zero entry a `defaultdict` materialises for an unseen class. -/
def UsageStats.init : UsageStats :=
  { active := 0, total_acquired := 0, total_wait_time := 0, max_concurrent := 0 }

structure ResourceManager where
  semaphores : List (String × Nat)           -- class → free slots
  rate_limiters : List (String × RateLimiter)
  usage_stats : List (String × UsageStats)
  deriving Repr, DecidableEq

namespace ResourceManager

/-- `ResourceManager.__init__` / `_initialize_resources`: the four
preconfigured classes with their concurrency caps and rate limits. -/
def init (now : ℚ) : ResourceManager :=
  { semaphores := [("jira", 20), ("confluence", 15), ("assistant", 10), ("default", 10)]
    rate_limiters :=
      [("jira", RateLimiter.init 100 20 now),
       ("confluence", RateLimiter.init 60 15 now),
       ("assistant", RateLimiter.init 30 5 now),
       ("default", RateLimiter.init 60 10 now)]
    usage_stats := [] }

/-- Current usage entry for a class (`self._usage_stats[resource_type]`). -/
def getUsage (m : ResourceManager) (c : String) : UsageStats :=
  (alookup m.usage_stats c).getD UsageStats.init

/-- Active count of a class, the quantity claim C4 is about. -/
def activeOf (m : ResourceManager) (c : String) : Nat := (m.getUsage c).active

/-- `ResourceManager.acquire(resource_type, wait=False)`: auto-create a
default-configured semaphore for an unknown class; fail immediately if
the gate is saturated (`semaphore.locked()`); otherwise take a slot,
run a (blocking, always-successful) rate-limiter acquire — an unknown
class falls back to, and mutates, the shared "default" limiter — and
update the usage statistics.  States reachable from `init` always carry
a "default" limiter, so the `getD` fallback is never exercised. -/
def acquireNoWait (m : ResourceManager) (now : ℚ) (cls : String) :
    ResourceManager × Bool :=
  let m :=
    match alookup m.semaphores cls with
    | some _ => m
    | Option.none => { m with semaphores := aupsert m.semaphores cls 10 }
  let slots := (alookup m.semaphores cls).getD 0
  if slots = 0 then (m, false)
  else
    let m := { m with semaphores := aupsert m.semaphores cls (slots - 1) }
    let rlKey := if (alookup m.rate_limiters cls).isSome then cls else "default"
    let rl := (alookup m.rate_limiters rlKey).getD (RateLimiter.init 60 10 now)
    let rw := rl.acquire now 1
    let m := { m with rate_limiters := aupsert m.rate_limiters rlKey rw.1 }
    let st := m.getUsage cls
    let st := { st with active := st.active + 1,
                        total_acquired := st.total_acquired + 1,
                        total_wait_time := st.total_wait_time + rw.2,
                        max_concurrent := max st.max_concurrent (st.active + 1) }
    ({ m with usage_stats := aupsert m.usage_stats cls st }, true)

/-- `ResourceManager.release(resource_type)`: return the slot and
decrement the active counter, floored at zero (Nat subtraction). -/
def release (m : ResourceManager) (cls : String) : ResourceManager :=
  match alookup m.semaphores cls with
  | Option.none => m
  | some slots =>
      let m := { m with semaphores := aupsert m.semaphores cls (slots + 1) }
      let st := m.getUsage cls
      { m with usage_stats := aupsert m.usage_stats cls { st with active := st.active - 1 } }

/-- Rollback loop of `acquire_multiple`: `for acq in acquired: release(acq)`. -/
def releaseAll (m : ResourceManager) (acquired : List String) : ResourceManager :=
  acquired.foldl release m

/-- Inner unit loop of `acquire_multiple` for one class (`for _ in
range(count)`), threading the list of units acquired so far in this
call. On the first failure, releases everything acquired in the call. -/
def acquireUnits (m : ResourceManager) (now : ℚ) (cls : String)
    (acquired : List String) : Nat → ResourceManager × Bool × List String
  | 0 => (m, true, acquired)
  | Nat.succ k =>
      let r := acquireNoWait m now cls
      if r.2 then acquireUnits r.1 now cls (acquired ++ [cls]) k
      else (releaseAll r.1 acquired, false, acquired)

/-- Outer loop of `acquire_multiple` over the requested classes. -/
def acquireMultipleAux (m : ResourceManager) (now : ℚ) (acquired : List String) :
    List (String × Nat) → ResourceManager × Bool × List String
  | [] => (m, true, acquired)
  | (cls, cnt) :: rest =>
      let r := acquireUnits m now cls acquired cnt
      if r.2.1 then acquireMultipleAux r.1 now r.2.2 rest
      else (r.1, false, r.2.2)

/-- `ResourceManager.acquire_multiple(resources, wait=False)`. -/
def acquireMultiple (m : ResourceManager) (now : ℚ)
    (reqs : List (String × Nat)) : ResourceManager × Bool :=
  let r := acquireMultipleAux m now [] reqs
  (r.1, r.2.1)

/-- `N + 1` consecutive non-waiting acquires on one class, collecting
the returned admission decisions in order. -/
def acquireRunNoWait (m : ResourceManager) (now : ℚ) (cls : String) :
    Nat → ResourceManager × List Bool
  | 0 => (m, [])
  | Nat.succ k =>
      let r := acquireNoWait m now cls
      let rest := acquireRunNoWait r.1 now cls k
      (rest.1, r.2 :: rest.2)

end ResourceManager

namespace ResourceManager

theorem acquireNoWait_slots_succ (m : ResourceManager) (now : ℚ) (cls : String)
    (s : Nat) (h : alookup m.semaphores cls = some (s + 1)) :
    (m.acquireNoWait now cls).2 = true ∧
    alookup (m.acquireNoWait now cls).1.semaphores cls = some s := by
  simp [ResourceManager.acquireNoWait, h, alookup_aupsert_self]

theorem acquireNoWait_slots_zero (m : ResourceManager) (now : ℚ) (cls : String)
    (h : alookup m.semaphores cls = some 0) :
    m.acquireNoWait now cls = (m, false) := by
  simp [ResourceManager.acquireNoWait, h]

theorem release_slots (m : ResourceManager) (cls : String) (s : Nat)
    (h : alookup m.semaphores cls = some s) :
    alookup (m.release cls).semaphores cls = some (s + 1) := by
  simp [ResourceManager.release, h, alookup_aupsert_self]

/-- After `k ≤ N` successful non-waiting acquires the gate has `N - k`
slots; running `N + 1` of them admits exactly the first `N`. -/
theorem acquireRunNoWait_succ (m : ResourceManager) (now : ℚ) (cls : String)
    (k : Nat) :
    m.acquireRunNoWait now cls (k + 1) =
      (((m.acquireNoWait now cls).1.acquireRunNoWait now cls k).1,
       (m.acquireNoWait now cls).2 ::
         ((m.acquireNoWait now cls).1.acquireRunNoWait now cls k).2) := rfl

theorem acquireRun_saturates (N : Nat) : ∀ (m : ResourceManager) (now : ℚ)
    (cls : String), alookup m.semaphores cls = some N →
    (m.acquireRunNoWait now cls (N + 1)).2 = List.replicate N true ++ [false] ∧
    alookup (m.acquireRunNoWait now cls (N + 1)).1.semaphores cls = some 0 := by
  induction N with
  | zero =>
      intro m now cls h
      simp [ResourceManager.acquireRunNoWait, acquireNoWait_slots_zero m now cls h, h]
  | succ k ih =>
      intro m now cls h
      obtain ⟨hb, hs⟩ := acquireNoWait_slots_succ m now cls k h
      obtain ⟨ih1, ih2⟩ := ih (m.acquireNoWait now cls).1 now cls hs
      refine ⟨?_, ?_⟩
      · rw [acquireRunNoWait_succ]
        simp [hb, ih1, List.replicate_succ]
      · rw [acquireRunNoWait_succ]
        simpa using ih2

end ResourceManager

/-- Occurrence count of a class name in the acquired-units list. -/
def occ (c : String) : List String → Nat
  | [] => 0
  | a :: rest => (if a = c then 1 else 0) + occ c rest

theorem occ_append_singleton (c a : String) (l : List String) :
    occ c (l ++ [a]) = occ c l + (if a = c then 1 else 0) := by
  induction l with
  | nil => simp [occ]
  | cons x xs ih => simp [occ, ih]; omega

namespace ResourceManager

theorem acquireNoWait_none_true (m : ResourceManager) (now : ℚ) (cls : String)
    (hm : alookup m.semaphores cls = Option.none) :
    (m.acquireNoWait now cls).2 = true := by
  simp [ResourceManager.acquireNoWait, hm, alookup_aupsert_self]

theorem acquireNoWait_active_true (m : ResourceManager) (now : ℚ) (cls : String)
    (h : (m.acquireNoWait now cls).2 = true) (c : String) :
    activeOf (m.acquireNoWait now cls).1 c =
      activeOf m c + (if cls = c then 1 else 0) := by
  by_cases hc : cls = c
  · subst hc
    simp only [if_pos rfl]
    cases hm : alookup m.semaphores cls with
    | none =>
        simp [ResourceManager.acquireNoWait, hm, activeOf, getUsage,
          alookup_aupsert_self]
    | some s =>
        cases s with
        | zero =>
            rw [acquireNoWait_slots_zero m now cls hm] at h
            simp at h
        | succ k =>
            simp [ResourceManager.acquireNoWait, hm, activeOf, getUsage,
              alookup_aupsert_self]
  · simp only [if_neg hc, Nat.add_zero]
    cases hm : alookup m.semaphores cls with
    | none =>
        simp [ResourceManager.acquireNoWait, hm, activeOf, getUsage,
          alookup_aupsert_self, alookup_aupsert_ne _ _ _ _ hc]
    | some s =>
        cases s with
        | zero => simp [acquireNoWait_slots_zero m now cls hm]
        | succ k =>
            simp [ResourceManager.acquireNoWait, hm, activeOf, getUsage,
              alookup_aupsert_self, alookup_aupsert_ne _ _ _ _ hc]

theorem acquireNoWait_active_false (m : ResourceManager) (now : ℚ) (cls : String)
    (h : (m.acquireNoWait now cls).2 = false) (c : String) :
    activeOf (m.acquireNoWait now cls).1 c = activeOf m c := by
  cases hm : alookup m.semaphores cls with
  | none => rw [acquireNoWait_none_true m now cls hm] at h; simp at h
  | some s =>
      cases s with
      | zero => simp [acquireNoWait_slots_zero m now cls hm]
      | succ k =>
          rw [(acquireNoWait_slots_succ m now cls k hm).1] at h
          simp at h

theorem acquireNoWait_sem_present (m : ResourceManager) (now : ℚ) (cls c : String)
    (h : (alookup m.semaphores c).isSome = true ∨ c = cls) :
    (alookup (m.acquireNoWait now cls).1.semaphores c).isSome = true := by
  by_cases hc : c = cls
  · subst hc
    cases hm : alookup m.semaphores c with
    | none =>
        simp [ResourceManager.acquireNoWait, hm, alookup_aupsert_self]
    | some s =>
        cases s with
        | zero => simp [acquireNoWait_slots_zero m now c hm, hm]
        | succ k => simp [(acquireNoWait_slots_succ m now c k hm).2]
  · have hp : (alookup m.semaphores c).isSome = true := by
      rcases h with h | h
      · exact h
      · exact absurd h hc
    have hc' : cls ≠ c := fun e => hc e.symm
    cases hm : alookup m.semaphores cls with
    | none =>
        simp [ResourceManager.acquireNoWait, hm, alookup_aupsert_self,
          alookup_aupsert_ne _ _ _ _ hc', hp]
    | some s =>
        cases s with
        | zero => simp [acquireNoWait_slots_zero m now cls hm, hp]
        | succ k =>
            simp [ResourceManager.acquireNoWait, hm,
              alookup_aupsert_ne _ _ _ _ hc', hp]

theorem release_sem_present (m : ResourceManager) (cls c : String)
    (h : (alookup m.semaphores c).isSome = true) :
    (alookup (m.release cls).semaphores c).isSome = true := by
  by_cases hc : cls = c
  · subst hc
    cases hm : alookup m.semaphores cls with
    | none => rw [hm] at h; simp at h
    | some s => simp [ResourceManager.release, hm, alookup_aupsert_self]
  · cases hm : alookup m.semaphores cls with
    | none => simp only [ResourceManager.release, hm]; exact h
    | some s =>
        simp [ResourceManager.release, hm, alookup_aupsert_ne _ _ _ _ hc, h]

theorem release_active_present (m : ResourceManager) (cls : String)
    (hs : (alookup m.semaphores cls).isSome = true) (c : String) :
    activeOf (m.release cls) c = activeOf m c - (if cls = c then 1 else 0) := by
  obtain ⟨s, hm⟩ := Option.isSome_iff_exists.mp hs
  by_cases hc : cls = c
  · subst hc
    simp [ResourceManager.release, hm, activeOf, getUsage, alookup_aupsert_self]
  · simp [ResourceManager.release, hm, activeOf, getUsage,
      alookup_aupsert_ne _ _ _ _ hc, hc]

end ResourceManager

/-- Invariant threaded through `acquire_multiple`: relative to the state
`m₀` at call entry, each class's active count exceeds its entry value by
exactly the number of units of that class acquired so far in this call,
and each acquired class has a semaphore entry (so its rollback release
is not a no-op). -/
def RollbackInv (m₀ m : ResourceManager) (acq : List String) : Prop :=
  (∀ c, m.activeOf c = m₀.activeOf c + occ c acq) ∧
  (∀ c ∈ acq, (alookup m.semaphores c).isSome = true)

namespace ResourceManager

theorem rollbackInv_step (m₀ m : ResourceManager) (acq : List String)
    (now : ℚ) (cls : String) (hInv : RollbackInv m₀ m acq)
    (hb : (m.acquireNoWait now cls).2 = true) :
    RollbackInv m₀ (m.acquireNoWait now cls).1 (acq ++ [cls]) := by
  obtain ⟨hA, hP⟩ := hInv
  constructor
  · intro c
    rw [acquireNoWait_active_true m now cls hb c, hA c, occ_append_singleton]
    omega
  · intro c hc
    rcases List.mem_append.mp hc with hc | hc
    · exact acquireNoWait_sem_present m now cls c (Or.inl (hP c hc))
    · have : c = cls := by simpa using hc
      exact acquireNoWait_sem_present m now cls c (Or.inr this)

theorem releaseAll_restores (acq : List String) : ∀ m m₀ : ResourceManager,
    RollbackInv m₀ m acq →
    ∀ c, (m.releaseAll acq).activeOf c = m₀.activeOf c := by
  induction acq with
  | nil =>
      intro m m₀ hInv c
      have := hInv.1 c
      simpa [ResourceManager.releaseAll, occ] using this
  | cons a rest ih =>
      intro m m₀ hInv c
      obtain ⟨hA, hP⟩ := hInv
      have hpa : (alookup m.semaphores a).isSome = true := hP a (by simp)
      have hstep : ∀ c', (m.release a).activeOf c' =
          m₀.activeOf c' + occ c' rest := by
        intro c'
        rw [release_active_present m a hpa c', hA c']
        by_cases h' : a = c'
        · subst h'; simp [occ]; omega
        · simp [occ, h']
      have hpres : ∀ c' ∈ rest, (alookup (m.release a).semaphores c').isSome = true :=
        fun c' hc' => release_sem_present m a c' (hP c' (by simp [hc']))
      have : (m.release a).releaseAll rest = m.releaseAll (a :: rest) := rfl
      rw [← this]
      exact ih (m.release a) m₀ ⟨hstep, hpres⟩ c

theorem acquireUnits_spec (now : ℚ) (cls : String) (cnt : Nat) :
    ∀ (m m₀ : ResourceManager) (acq : List String), RollbackInv m₀ m acq →
    ((m.acquireUnits now cls acq cnt).2.1 = true →
        RollbackInv m₀ (m.acquireUnits now cls acq cnt).1
          (m.acquireUnits now cls acq cnt).2.2) ∧
    ((m.acquireUnits now cls acq cnt).2.1 = false →
        ∀ c, (m.acquireUnits now cls acq cnt).1.activeOf c = m₀.activeOf c) := by
  induction cnt with
  | zero =>
      intro m m₀ acq hInv
      exact ⟨fun _ => hInv, fun hfalse => by simp [ResourceManager.acquireUnits] at hfalse⟩
  | succ k ih =>
      intro m m₀ acq hInv
      by_cases hb : (m.acquireNoWait now cls).2 = true
      · have hred : m.acquireUnits now cls acq (k + 1) =
            (m.acquireNoWait now cls).1.acquireUnits now cls (acq ++ [cls]) k := by
          simp [ResourceManager.acquireUnits, hb]
        rw [hred]
        exact ih (m.acquireNoWait now cls).1 m₀ (acq ++ [cls])
          (rollbackInv_step m₀ m acq now cls hInv hb)
      · have hb' : (m.acquireNoWait now cls).2 = false := by
          simpa using hb
        have hred : m.acquireUnits now cls acq (k + 1) =
            ((m.acquireNoWait now cls).1.releaseAll acq, false, acq) := by
          simp [ResourceManager.acquireUnits, hb']
        rw [hred]
        refine ⟨fun htrue => by simp at htrue, fun _ c => ?_⟩
        have hInv' : RollbackInv m₀ (m.acquireNoWait now cls).1 acq := by
          refine ⟨fun c' => ?_, fun c' hc' => ?_⟩
          · rw [acquireNoWait_active_false m now cls hb' c']
            exact hInv.1 c'
          · exact acquireNoWait_sem_present m now cls c' (Or.inl (hInv.2 c' hc'))
        exact releaseAll_restores acq (m.acquireNoWait now cls).1 m₀ hInv' c

theorem acquireMultipleAux_spec (now : ℚ) (reqs : List (String × Nat)) :
    ∀ (m m₀ : ResourceManager) (acq : List String), RollbackInv m₀ m acq →
    (m.acquireMultipleAux now acq reqs).2.1 = false →
    ∀ c, (m.acquireMultipleAux now acq reqs).1.activeOf c = m₀.activeOf c := by
  induction reqs with
  | nil =>
      intro m m₀ acq _ hfalse
      simp [ResourceManager.acquireMultipleAux] at hfalse
  | cons hd rest ih =>
      intro m m₀ acq hInv hfalse c
      obtain ⟨cls, cnt⟩ := hd
      obtain ⟨hT, hF⟩ := acquireUnits_spec now cls cnt m m₀ acq hInv
      by_cases hu : (m.acquireUnits now cls acq cnt).2.1 = true
      · have hred : m.acquireMultipleAux now acq ((cls, cnt) :: rest) =
            (m.acquireUnits now cls acq cnt).1.acquireMultipleAux now
              (m.acquireUnits now cls acq cnt).2.2 rest := by
          simp [ResourceManager.acquireMultipleAux, hu]
        rw [hred] at hfalse ⊢
        exact ih _ m₀ _ (hT hu) hfalse c
      · have hu' : (m.acquireUnits now cls acq cnt).2.1 = false := by simpa using hu
        have hred : m.acquireMultipleAux now acq ((cls, cnt) :: rest) =
            ((m.acquireUnits now cls acq cnt).1, false,
              (m.acquireUnits now cls acq cnt).2.2) := by
          simp [ResourceManager.acquireMultipleAux, hu']
        rw [hred]
        exact hF hu' c

end ResourceManager

/-- **C4** — `acquire_multiple` is all-or-nothing: whenever the call
returns failure (some requested unit could not be obtained), every unit
acquired earlier within the call has been released again, so every
class's active count is unchanged relative to before the call. -/
theorem acquire_multiple_all_or_nothing (m : ResourceManager) (now : ℚ)
    (reqs : List (String × Nat)) (h : (m.acquireMultiple now reqs).2 = false)
    (c : String) :
    (m.acquireMultiple now reqs).1.activeOf c = m.activeOf c := by
  have base : RollbackInv m m [] := ⟨fun c' => by simp [occ], by simp⟩
  have h' : (m.acquireMultipleAux now [] reqs).2.1 = false := h
  exact ResourceManager.acquireMultipleAux_spec now reqs m m [] base h' c

/-- Witness for C4: a manager with a single one-slot class "x"; a
request for two units of "x" fails on the second unit and rolls the
first back, leaving the active count of "x" at 0. -/
theorem acquire_multiple_all_or_nothing_witness :
    ((ResourceManager.mk [("x", 1)] [("default", RateLimiter.init 60 10 0)]
        []).acquireMultiple 0 [("x", 2)]).2 = false ∧
    ((ResourceManager.mk [("x", 1)] [("default", RateLimiter.init 60 10 0)]
        []).acquireMultiple 0 [("x", 2)]).1.activeOf "x" =
      (ResourceManager.mk [("x", 1)] [("default", RateLimiter.init 60 10 0)]
        []).activeOf "x" :=
  ⟨by decide,
   acquire_multiple_all_or_nothing
     (ResourceManager.mk [("x", 1)] [("default", RateLimiter.init 60 10 0)] [])
     0 [("x", 2)] (by decide) "x"⟩

/-! ## BatchProcessor (`batch_processor.py`)

Per-operation-kind queues with an armed-timer set, adaptive per-kind
parameters (`defaultdict`s falling back to the configured base values),
and retry bookkeeping.  An item's `asyncio.Future` is modelled by the
list of items a flush resolves (success or terminal failure). -/

structure BatchItem where
  id : String
  operation : String
  params : List (String × String)
  timestamp : ℚ
  retry_count : Nat
  deriving Repr, DecidableEq

structure BatchProcessor where
  batch_size : Nat                 -- configured base batch size
  wait_time : ℚ                    -- configured base wait window (seconds)
  max_retries : Nat
  adaptive : Bool
  pending : List (String × List BatchItem)
  processors : List String         -- kinds with a registered processor
  timers : List String             -- kinds whose wait timer is armed
  total_items : Nat
  total_batches : Nat
  total_failures : Nat
  avg_batch_size : ℚ
  batch_sizes : List (String × Int)      -- per-kind adaptive threshold
  wait_times : List (String × ℚ)         -- per-kind adaptive wait window
  success_rates : List (String × ℚ)      -- per-kind EMA success rate
  deriving Repr, DecidableEq

namespace BatchProcessor

/-- `BatchProcessor.__init__(batch_size, wait_time, max_retries, adaptive)`. -/
def init (batch_size : Nat) (wait_time : ℚ) (max_retries : Nat)
    (adaptive : Bool) : BatchProcessor :=
  { batch_size := batch_size, wait_time := wait_time,
    max_retries := max_retries, adaptive := adaptive,
    pending := [], processors := [], timers := [],
    total_items := 0, total_batches := 0, total_failures := 0,
    avg_batch_size := 0, batch_sizes := [], wait_times := [],
    success_rates := [] }

/-- `register_processor(operation, processor)`: the callback itself is
external behaviour; the state records the registered kind. -/
def registerProcessor (bp : BatchProcessor) (op : String) : BatchProcessor :=
  { bp with processors := if op ∈ bp.processors then bp.processors
                          else bp.processors ++ [op] }

/-- Raw per-kind adaptive threshold (`self._adaptive_params["batch_sizes"][op]`,
a `defaultdict(lambda: self.batch_size)`). -/
def getBatchSizeRaw (bp : BatchProcessor) (op : String) : Int :=
  (alookup bp.batch_sizes op).getD (bp.batch_size : Int)

/-- `_get_batch_size(operation)`. -/
def getBatchSize (bp : BatchProcessor) (op : String) : Int :=
  if bp.adaptive then bp.getBatchSizeRaw op else (bp.batch_size : Int)

/-- Raw per-kind adaptive wait window. -/
def getWaitTimeRaw (bp : BatchProcessor) (op : String) : ℚ :=
  (alookup bp.wait_times op).getD bp.wait_time

/-- `_get_wait_time(operation)`. -/
def getWaitTime (bp : BatchProcessor) (op : String) : ℚ :=
  if bp.adaptive then bp.getWaitTimeRaw op else bp.wait_time

/-- Per-kind EMA success rate (`defaultdict(lambda: 1.0)`). -/
def getSuccessRate (bp : BatchProcessor) (op : String) : ℚ :=
  (alookup bp.success_rates op).getD 1

/-- `_update_success_rate(operation, success)`: exponential moving
average with smoothing factor alpha = 0.1. -/
def updateSuccessRate (bp : BatchProcessor) (op : String) (success : ℚ) :
    BatchProcessor :=
  let newRate := (1 / 10) * success + (1 - 1 / 10) * bp.getSuccessRate op
  { bp with success_rates := aupsert bp.success_rates op newRate }

/-- Python `int()` on the nonnegative rationals produced by the tuner
(truncation toward zero coincides with the floor there). -/
def pyInt (q : ℚ) : Int := ⌊q⌋

/-- `_adapt_parameters(operation, batch_size, processing_time)`:
threshold tuning from the current per-kind threshold with caps, then
wait-window tuning recomputed from the configured base `self.wait_time`. -/
def adaptParameters (bp : BatchProcessor) (op : String) (batchSize : Nat)
    (processingTime : ℚ) : BatchProcessor :=
  let success_rate := bp.getSuccessRate op
  let current_batch_size : ℚ := (bp.getBatchSizeRaw op : ℚ)
  let new_batch_size : ℚ :=
    if success_rate > 95 / 100 then
      min (current_batch_size * (11 / 10)) ((bp.batch_size : ℚ) * 2)
    else if success_rate < 8 / 10 then
      max (current_batch_size * (9 / 10)) 1
    else current_batch_size
  let bp := { bp with batch_sizes := aupsert bp.batch_sizes op (pyInt new_batch_size) }
  let items_per_second : ℚ :=
    if processingTime > 0 then (batchSize : ℚ) / processingTime else (batchSize : ℚ)
  let new_wait_time : ℚ :=
    if items_per_second > 100 then min (bp.wait_time * (12 / 10)) 2
    else if items_per_second < 10 then max (bp.wait_time * (8 / 10)) (1 / 10)
    else bp.wait_time
  { bp with wait_times := aupsert bp.wait_times op new_wait_time }

/-- The item `add` creates for a submission `(item_id, params)` at `now`. -/
def mkItem (op : String) (r : String × List (String × String)) (now : ℚ) :
    BatchItem :=
  { id := r.1, operation := op, params := r.2, timestamp := now, retry_count := 0 }

/-- `add(operation, params, item_id)` up to the `await future`: `none`
means the ValueError path (no registered processor); `some b` means the
item was enqueued and `b` tells whether a threshold flush task was
scheduled.  Arms the kind's timer if none is armed, then compares the
queue length against the kind's current adaptive threshold. -/
def add (bp : BatchProcessor) (op : String) (r : String × List (String × String))
    (now : ℚ) : BatchProcessor × Option Bool :=
  if op ∉ bp.processors then (bp, Option.none)
  else
    let bp := { bp with
      pending := aupsert bp.pending op
        ((alookup bp.pending op).getD [] ++ [mkItem op r now]),
      total_items := bp.total_items + 1 }
    let bp := if op ∈ bp.timers then bp else { bp with timers := bp.timers ++ [op] }
    (bp, some (decide ((((alookup bp.pending op).getD []).length : Int) ≥ bp.getBatchSize op)))

/-- A sequence of `add` calls for one kind, counting how many of them
scheduled a threshold flush. -/
def addRun (bp : BatchProcessor) (op : String) (now : ℚ) :
    List (String × List (String × String)) → BatchProcessor × Nat
  | [] => (bp, 0)
  | r :: rest =>
      let a := bp.add op r now
      let b := addRun a.1 op now rest
      (b.1, (if a.2 = some true then 1 else 0) + b.2)

/-- `_flush_batch(operation)` up to the processor invocation: atomically
drain the kind's queue and cancel its timer; the second component is the
list handed to the registered processor (`[]` when no invocation
happens).  Updates `total_batches` and the moving average batch size. -/
def flushBatch (bp : BatchProcessor) (op : String) : BatchProcessor × List BatchItem :=
  match alookup bp.pending op with
  | Option.none => (bp, [])
  | some items =>
      let bp := { bp with pending := aerase bp.pending op,
                          timers := bp.timers.filter (fun o => decide (o ≠ op)) }
      if items = [] then (bp, [])
      else
        let bp := { bp with
          total_batches := bp.total_batches + 1,
          avg_batch_size :=
            (bp.avg_batch_size * (bp.total_batches : ℚ) + (items.length : ℚ)) /
              ((bp.total_batches : ℚ) + 1) }
        (bp, items)

/-- `_handle_failed_batch(items, error)`: items below the retry ceiling
are re-enqueued with an incremented count; items at the ceiling have
their future resolved with the failure (second component, in order);
a timer is armed for each re-queued kind that has none. -/
def handleFailedBatch (bp : BatchProcessor) (items : List BatchItem) :
    BatchProcessor × List BatchItem :=
  let retry_items := (items.filter (fun i => decide (i.retry_count < bp.max_retries))).map
      (fun i => { i with retry_count := i.retry_count + 1 })
  let failed := items.filter (fun i => decide (¬ i.retry_count < bp.max_retries))
  let newPending := retry_items.foldl
      (fun p i => aupsert p i.operation ((alookup p i.operation).getD [] ++ [i]))
      bp.pending
  let bp := { bp with pending := newPending }
  let ops := (retry_items.map (fun i => i.operation)).dedup
  let newTimers := ops.foldl (fun t o => if o ∈ t then t else t ++ [o]) bp.timers
  let bp := { bp with timers := newTimers }
  (bp, failed)

/-- One `_flush_batch` under a registered processor that raises on every
invocation: drain, count the failures, update the success-rate EMA with
weight 0 (when adaptive), then `_handle_failed_batch`.  The second
component lists the items resolved (with the failure) by this flush. -/
def flushAlwaysFail (bp : BatchProcessor) (op : String) :
    BatchProcessor × List BatchItem :=
  let d := bp.flushBatch op
  if d.2 = [] then (d.1, [])
  else
    let bp := { d.1 with total_failures := d.1.total_failures + d.2.length }
    let bp := if bp.adaptive then bp.updateSuccessRate op 0 else bp
    bp.handleFailedBatch d.2

/-- Repeated failing flushes of one kind, accumulating in order every
item that got a terminal (failure) resolution. -/
def failRun (bp : BatchProcessor) (op : String) : Nat → BatchProcessor × List BatchItem
  | 0 => (bp, [])
  | n + 1 =>
      let s := bp.flushAlwaysFail op
      let rest := failRun s.1 op n
      (rest.1, s.2 ++ rest.2)

end BatchProcessor

/-- Re-queueing a nonempty list of retry items for one kind appends them,
in order, to that kind's pending queue. -/
theorem requeue_lookup (ritems : List BatchItem) :
    ∀ (p : List (String × List BatchItem)) (op : String),
    (∀ i ∈ ritems, i.operation = op) → ritems ≠ [] →
    alookup (ritems.foldl
        (fun p i => aupsert p i.operation ((alookup p i.operation).getD [] ++ [i])) p) op
      = some ((alookup p op).getD [] ++ ritems) := by
  induction ritems with
  | nil => intro _ _ _ h; exact absurd rfl h
  | cons i rest ih =>
      intro p op hops hne
      have hi : i.operation = op := hops i (by simp)
      by_cases hr : rest = []
      · subst hr
        simp [hi, alookup_aupsert_self]
      · rw [List.foldl_cons]
        rw [ih _ op (fun j hj => hops j (by simp [hj])) hr]
        simp [hi, alookup_aupsert_self]

namespace BatchProcessor

theorem flushBatch_absent (bp : BatchProcessor) (op : String)
    (hp : alookup bp.pending op = Option.none) :
    bp.flushBatch op = (bp, []) := by
  simp [BatchProcessor.flushBatch, hp]

/-- Explicit form of a draining `_flush_batch`. -/
theorem flushBatch_eq (bp : BatchProcessor) (op : String) (items : List BatchItem)
    (hp : alookup bp.pending op = some items) (hne : items ≠ []) :
    bp.flushBatch op =
      ({ bp with pending := aerase bp.pending op,
                 timers := bp.timers.filter (fun o => decide (o ≠ op)),
                 total_batches := bp.total_batches + 1,
                 avg_batch_size :=
                   (bp.avg_batch_size * (bp.total_batches : ℚ) +
                     (items.length : ℚ)) / ((bp.total_batches : ℚ) + 1) }, items) := by
  simp [BatchProcessor.flushBatch, hp, hne]

theorem flushAlwaysFail_absent (bp : BatchProcessor) (op : String)
    (hp : alookup bp.pending op = Option.none) :
    bp.flushAlwaysFail op = (bp, []) := by
  simp [BatchProcessor.flushAlwaysFail, flushBatch_absent bp op hp]

theorem flushBatch_drains (bp : BatchProcessor) (op : String)
    (items : List BatchItem)
    (hp : alookup bp.pending op = some items) (hne : items ≠ []) :
    (bp.flushBatch op).2 = items ∧
    alookup (bp.flushBatch op).1.pending op = Option.none ∧
    op ∉ (bp.flushBatch op).1.timers := by
  rw [flushBatch_eq bp op items hp hne]
  refine ⟨rfl, alookup_aerase_self _ _, ?_⟩
  simp [List.mem_filter]

theorem handleFailedBatch_below (bp : BatchProcessor) (op : String)
    (items : List BatchItem) (hne : items ≠ [])
    (hops : ∀ i ∈ items, i.operation = op)
    (hrc : ∀ i ∈ items, i.retry_count < bp.max_retries)
    (hp : alookup bp.pending op = Option.none) :
    (bp.handleFailedBatch items).2 = [] ∧
    alookup (bp.handleFailedBatch items).1.pending op =
      some (items.map (fun i => { i with retry_count := i.retry_count + 1 })) ∧
    (bp.handleFailedBatch items).1.max_retries = bp.max_retries := by
  have hfilter : items.filter (fun i => decide (i.retry_count < bp.max_retries)) = items :=
    List.filter_eq_self.mpr (fun i hi => decide_eq_true (hrc i hi))
  have hfailed : items.filter (fun i => decide (¬ i.retry_count < bp.max_retries)) = [] := by
    rw [List.filter_eq_nil_iff]
    intro i hi
    simpa using hrc i hi
  refine ⟨?_, ?_, ?_⟩
  · simp only [BatchProcessor.handleFailedBatch, hfailed]
  · simp only [BatchProcessor.handleFailedBatch, hfilter]
    have hops' : ∀ i ∈ items.map (fun i => { i with retry_count := i.retry_count + 1 }),
        i.operation = op := by
      intro i hi
      obtain ⟨j, hj, rfl⟩ := List.mem_map.mp hi
      exact hops j hj
    have hne' : items.map (fun i => { i with retry_count := i.retry_count + 1 }) ≠ [] := by
      simpa using hne
    rw [requeue_lookup _ _ op hops' hne', hp]
    simp
  · simp [BatchProcessor.handleFailedBatch]

theorem handleFailedBatch_at (bp : BatchProcessor) (items : List BatchItem)
    (hrc : ∀ i ∈ items, i.retry_count = bp.max_retries) :
    bp.handleFailedBatch items = (bp, items) := by
  have hfilter : items.filter (fun i => decide (i.retry_count < bp.max_retries)) = [] := by
    rw [List.filter_eq_nil_iff]
    intro i hi
    simp [hrc i hi]
  have hfailed : items.filter (fun i => decide (¬ i.retry_count < bp.max_retries)) = items := by
    apply List.filter_eq_self.mpr
    intro i hi
    simp [hrc i hi]
  simp [BatchProcessor.handleFailedBatch, hfilter, hfailed]
  intro i hi
  exact (hrc i hi).ge

theorem handleFailedBatch_at_lookup (bp : BatchProcessor) (items : List BatchItem)
    (op : String) (hrc : ∀ i ∈ items, i.retry_count = bp.max_retries)
    (hp : alookup bp.pending op = Option.none) :
    (bp.handleFailedBatch items).2 = items ∧
    alookup (bp.handleFailedBatch items).1.pending op = Option.none ∧
    (bp.handleFailedBatch items).1.max_retries = bp.max_retries := by
  rw [handleFailedBatch_at bp items hrc]
  exact ⟨rfl, hp, rfl⟩

/-- A failing flush of a queue whose items are all strictly below the
retry ceiling resolves nothing and re-queues every item with its retry
count incremented, in order. -/
theorem flushAlwaysFail_below (bp : BatchProcessor) (op : String)
    (items : List BatchItem)
    (hp : alookup bp.pending op = some items) (hne : items ≠ [])
    (hops : ∀ i ∈ items, i.operation = op)
    (hrc : ∀ i ∈ items, i.retry_count < bp.max_retries) :
    (bp.flushAlwaysFail op).2 = [] ∧
    alookup (bp.flushAlwaysFail op).1.pending op =
      some (items.map (fun i => { i with retry_count := i.retry_count + 1 })) ∧
    (bp.flushAlwaysFail op).1.max_retries = bp.max_retries := by
  have h1 := flushBatch_eq bp op items hp hne
  cases hA : bp.adaptive with
  | false =>
      simp only [BatchProcessor.flushAlwaysFail, h1, if_neg hne, hA,
        Bool.false_eq_true, if_false]
      exact handleFailedBatch_below _ op items hne hops hrc (alookup_aerase_self _ _)
  | true =>
      simp only [BatchProcessor.flushAlwaysFail, h1, if_neg hne, hA, if_true,
        BatchProcessor.updateSuccessRate]
      exact handleFailedBatch_below _ op items hne hops hrc (alookup_aerase_self _ _)

/-- A failing flush of a queue whose items are all at the retry ceiling
resolves exactly those items (with the failure) and leaves the kind's
queue empty. -/
theorem flushAlwaysFail_at (bp : BatchProcessor) (op : String)
    (items : List BatchItem)
    (hp : alookup bp.pending op = some items) (hne : items ≠ [])
    (hrc : ∀ i ∈ items, i.retry_count = bp.max_retries) :
    (bp.flushAlwaysFail op).2 = items ∧
    alookup (bp.flushAlwaysFail op).1.pending op = Option.none ∧
    (bp.flushAlwaysFail op).1.max_retries = bp.max_retries := by
  have h1 := flushBatch_eq bp op items hp hne
  cases hA : bp.adaptive with
  | false =>
      simp only [BatchProcessor.flushAlwaysFail, h1, if_neg hne, hA,
        Bool.false_eq_true, if_false]
      exact handleFailedBatch_at_lookup _ items op hrc (alookup_aerase_self _ _)
  | true =>
      simp only [BatchProcessor.flushAlwaysFail, h1, if_neg hne, hA, if_true,
        BatchProcessor.updateSuccessRate]
      exact handleFailedBatch_at_lookup _ items op hrc (alookup_aerase_self _ _)

theorem failRun_absent (op : String) : ∀ (n : Nat) (bp : BatchProcessor),
    alookup bp.pending op = Option.none → bp.failRun op n = (bp, []) := by
  intro n
  induction n with
  | zero => intro bp _; rfl
  | succ k ih =>
      intro bp hp
      show (((bp.flushAlwaysFail op).1.failRun op k).1,
        (bp.flushAlwaysFail op).2 ++ ((bp.flushAlwaysFail op).1.failRun op k).2) = _
      rw [flushAlwaysFail_absent bp op hp]
      rw [ih bp hp]
      simp

theorem failRun_add (op : String) (n m : Nat) : ∀ bp : BatchProcessor,
    bp.failRun op (n + m) =
      (((bp.failRun op n).1.failRun op m).1,
       (bp.failRun op n).2 ++ ((bp.failRun op n).1.failRun op m).2) := by
  induction n with
  | zero => intro bp; simp [BatchProcessor.failRun]
  | succ k ih =>
      intro bp
      have hstep : ∀ (j : Nat) (b : BatchProcessor), b.failRun op (j + 1) =
          (((b.flushAlwaysFail op).1.failRun op j).1,
           (b.flushAlwaysFail op).2 ++ ((b.flushAlwaysFail op).1.failRun op j).2) :=
        fun j b => rfl
      have hkm : k + 1 + m = (k + m) + 1 := by omega
      rw [hkm, hstep (k + m) bp, ih (bp.flushAlwaysFail op).1, hstep k bp]
      simp [List.append_assoc]

theorem failRun_succ (bp : BatchProcessor) (op : String) (j : Nat) :
    bp.failRun op (j + 1) =
      (((bp.flushAlwaysFail op).1.failRun op j).1,
       (bp.flushAlwaysFail op).2 ++ ((bp.flushAlwaysFail op).1.failRun op j).2) := rfl

/-- Induction core for retry termination: if every pending item of a
kind is `d` retries away from the ceiling, then `d + 1` further failing
flushes resolve exactly those items (by id, in order, at the ceiling),
empty the kind's queue, and no flush before the last one resolves
anything. -/
theorem failRun_spec (op : String) : ∀ (d : Nat) (bp : BatchProcessor)
    (items : List BatchItem),
    alookup bp.pending op = some items → items ≠ [] →
    (∀ i ∈ items, i.operation = op) →
    (∀ i ∈ items, i.retry_count + d = bp.max_retries) →
    ((bp.failRun op (d + 1)).2.map (fun i => i.id) = items.map (fun i => i.id) ∧
     (∀ i ∈ (bp.failRun op (d + 1)).2, i.retry_count = bp.max_retries) ∧
     alookup (bp.failRun op (d + 1)).1.pending op = Option.none ∧
     (∀ k, k ≤ d → (bp.failRun op k).2 = [])) := by
  intro d
  induction d with
  | zero =>
      intro bp items hp hne hops hrc
      have hrc' : ∀ i ∈ items, i.retry_count = bp.max_retries := by
        intro i hi
        have := hrc i hi
        omega
      obtain ⟨h2, hpend, hmax⟩ := flushAlwaysFail_at bp op items hp hne hrc'
      refine ⟨?_, ?_, ?_, ?_⟩
      · rw [failRun_succ]
        simp [BatchProcessor.failRun, h2]
      · rw [failRun_succ]
        simp only [BatchProcessor.failRun, List.append_nil, h2]
        exact hrc'
      · rw [failRun_succ]
        simpa [BatchProcessor.failRun] using hpend
      · intro k hk
        have : k = 0 := Nat.le_zero.mp hk
        subst this
        rfl
  | succ d ih =>
      intro bp items hp hne hops hrc
      have hlt : ∀ i ∈ items, i.retry_count < bp.max_retries := by
        intro i hi
        have := hrc i hi
        omega
      obtain ⟨h2, hpend, hmax⟩ := flushAlwaysFail_below bp op items hp hne hops hlt
      have hne' : items.map (fun i => { i with retry_count := i.retry_count + 1 }) ≠ [] := by
        simpa using hne
      have hops' : ∀ i ∈ items.map (fun i => { i with retry_count := i.retry_count + 1 }),
          i.operation = op := by
        intro i hi
        obtain ⟨j, hj, rfl⟩ := List.mem_map.mp hi
        exact hops j hj
      have hrc'' : ∀ i ∈ items.map (fun i => { i with retry_count := i.retry_count + 1 }),
          i.retry_count + d = (bp.flushAlwaysFail op).1.max_retries := by
        intro i hi
        obtain ⟨j, hj, rfl⟩ := List.mem_map.mp hi
        have := hrc j hj
        rw [hmax]
        simp only
        omega
      obtain ⟨ih1, ih2, ih3, ih4⟩ := ih (bp.flushAlwaysFail op).1 _ hpend hne' hops' hrc''
      refine ⟨?_, ?_, ?_, ?_⟩
      · rw [failRun_succ]
        simp only [h2, List.nil_append]
        rw [ih1, List.map_map]
        apply List.map_congr_left
        intro i _
        rfl
      · rw [failRun_succ]
        simp only [h2, List.nil_append]
        rw [hmax] at ih2
        exact ih2
      · rw [failRun_succ]
        exact ih3
      · intro k hk
        cases k with
        | zero => rfl
        | succ k' =>
            rw [failRun_succ]
            simp only [h2, List.nil_append]
            exact ih4 k' (by omega)

end BatchProcessor

/-- **C3** — Under a registered processor that fails on every
invocation, every submitted item (retry count 0) is retried exactly
`max_retries` times: the first `max_retries` failing flushes resolve
nothing, the `(max_retries + 1)`th resolves every submitted item with
the failure, each exactly once (in submission order, with retry count
exactly `max_retries`, never beyond), the kind's queue is then empty,
and any further failing flushes resolve nothing more. -/
theorem retry_termination (bp : BatchProcessor) (op : String)
    (items : List BatchItem)
    (hp : alookup bp.pending op = some items) (hne : items ≠ [])
    (hops : ∀ i ∈ items, i.operation = op)
    (hrc : ∀ i ∈ items, i.retry_count = 0) :
    ((bp.failRun op (bp.max_retries + 1)).2.map (fun i => i.id) =
        items.map (fun i => i.id)) ∧
    (∀ i ∈ (bp.failRun op (bp.max_retries + 1)).2,
        i.retry_count = bp.max_retries) ∧
    (∀ k, k ≤ bp.max_retries → (bp.failRun op k).2 = []) ∧
    (∀ e, (bp.failRun op (bp.max_retries + 1 + e)).2.map (fun i => i.id) =
        items.map (fun i => i.id)) := by
  have hrc' : ∀ i ∈ items, i.retry_count + bp.max_retries = bp.max_retries := by
    intro i hi
    rw [hrc i hi]
    omega
  obtain ⟨h1, h2, h3, h4⟩ :=
    BatchProcessor.failRun_spec op bp.max_retries bp items hp hne hops hrc'
  refine ⟨h1, h2, h4, ?_⟩
  intro e
  rw [BatchProcessor.failRun_add op (bp.max_retries + 1) e bp]
  rw [BatchProcessor.failRun_absent op e _ h3]
  simpa using h1

namespace BatchProcessor

/-- One registered `add`: appends the item to the kind's queue, reports
whether the queue length reached the kind's current adaptive threshold,
and leaves the kind's timer armed; the registered set and the kind's
threshold are untouched. -/
theorem add_spec (bp : BatchProcessor) (op : String)
    (r : String × List (String × String)) (now : ℚ)
    (hreg : op ∈ bp.processors) (cur : List BatchItem)
    (hp : (alookup bp.pending op).getD [] = cur) :
    alookup (bp.add op r now).1.pending op = some (cur ++ [mkItem op r now]) ∧
    (bp.add op r now).2 =
      some (decide (((cur.length : Int) + 1) ≥ bp.getBatchSize op)) ∧
    op ∈ (bp.add op r now).1.timers ∧
    (bp.add op r now).1.processors = bp.processors ∧
    (bp.add op r now).1.getBatchSize op = bp.getBatchSize op := by
  by_cases ht : op ∈ bp.timers
  all_goals
    refine ⟨?_, ?_, ?_, ?_, ?_⟩ <;>
      simp [BatchProcessor.add, hreg, ht, alookup_aupsert_self, hp,
        BatchProcessor.getBatchSize, BatchProcessor.getBatchSizeRaw,
        BatchProcessor.mkItem]

/-- Invariant run for C9: submitting the remaining requests of a batch
whose total size equals the kind's current threshold schedules exactly
one threshold flush — on the last submission — and leaves all items
queued in order with the timer armed. -/
theorem addRun_spec (op : String) (now : ℚ) :
    ∀ (reqs : List (String × List (String × String))) (bp : BatchProcessor)
      (cur : List BatchItem),
    op ∈ bp.processors →
    (alookup bp.pending op).getD [] = cur →
    ((cur.length : Int) + reqs.length = bp.getBatchSize op) →
    reqs ≠ [] →
    ((bp.addRun op now reqs).2 = 1 ∧
     alookup (bp.addRun op now reqs).1.pending op
       = some (cur ++ reqs.map (fun r => mkItem op r now)) ∧
     op ∈ (bp.addRun op now reqs).1.timers) := by
  intro reqs
  induction reqs with
  | nil => intro _ _ _ _ _ h; exact absurd rfl h
  | cons r rest ih =>
      intro bp cur hreg hp hlen _
      obtain ⟨ha1, ha2, ha3, ha4, ha5⟩ := add_spec bp op r now hreg cur hp
      by_cases hr : rest = []
      · subst hr
        have hflag : ((cur.length : Int) + 1) ≥ bp.getBatchSize op := by
          simp at hlen
          omega
        have hrun : bp.addRun op now [r] =
            ((bp.add op r now).1, (if (bp.add op r now).2 = some true then 1 else 0) + 0) := rfl
        rw [hrun]
        rw [ha2]
        simp only [decide_eq_true hflag]
        exact ⟨rfl, by simpa using ha1, ha3⟩
      · have hflag : ¬ (((cur.length : Int) + 1) ≥ bp.getBatchSize op) := by
          have hr1 : (1 : Int) ≤ rest.length := by
            cases rest with
            | nil => exact absurd rfl hr
            | cons _ _ => simp
          simp at hlen
          omega
        have hrun : bp.addRun op now (r :: rest) =
            ((((bp.add op r now).1).addRun op now rest).1,
             (if (bp.add op r now).2 = some true then 1 else 0) +
               (((bp.add op r now).1).addRun op now rest).2) := rfl
        have hih := ih (bp.add op r now).1 (cur ++ [mkItem op r now])
          (by rw [ha4]; exact hreg) (by rw [ha1]; rfl)
          (by rw [ha5]
              simp at hlen ⊢
              omega)
          hr
        rw [hrun, ha2]
        simp only [decide_eq_false hflag]
        refine ⟨by simpa using hih.1, ?_, hih.2.2⟩
        rw [hih.2.1]
        simp

end BatchProcessor

/-- **C9** — For a kind whose current adaptive threshold is `T` (with
the queue empty and a processor registered), submitting exactly `T`
items schedules exactly one threshold flush; that flush receives
exactly those `T` items in submission order, cancels the armed timer
and empties the queue, so the late timer-path flush delivers nothing —
no item is handed to the processor twice. -/
theorem threshold_flush (bp : BatchProcessor) (op : String) (now : ℚ)
    (reqs : List (String × List (String × String)))
    (hreg : op ∈ bp.processors)
    (hp : alookup bp.pending op = Option.none)
    (hT : (reqs.length : Int) = bp.getBatchSize op)
    (hne : reqs ≠ []) :
    (bp.addRun op now reqs).2 = 1 ∧
    ((bp.addRun op now reqs).1.flushBatch op).2
      = reqs.map (fun r => BatchProcessor.mkItem op r now) ∧
    op ∉ ((bp.addRun op now reqs).1.flushBatch op).1.timers ∧
    alookup ((bp.addRun op now reqs).1.flushBatch op).1.pending op
      = Option.none ∧
    (((bp.addRun op now reqs).1.flushBatch op).1.flushBatch op).2 = [] := by
  obtain ⟨h1, h2, _⟩ := BatchProcessor.addRun_spec op now reqs bp []
    hreg (by rw [hp]; rfl) (by simpa using hT) hne
  rw [List.nil_append] at h2
  have hne' : reqs.map (fun r => BatchProcessor.mkItem op r now) ≠ [] := by
    simpa using hne
  obtain ⟨hf1, hf2, hf3⟩ :=
    BatchProcessor.flushBatch_drains (bp.addRun op now reqs).1 op _ h2 hne'
  exact ⟨h1, hf1, hf3, hf2,
    by rw [BatchProcessor.flushBatch_absent _ op hf2]⟩

/-- Witness for C9: base batch size 2 (threshold T = 2), two submissions
"a" and "b" for the registered kind "op". -/
theorem threshold_flush_witness :
    ("op" ∈ ({ BatchProcessor.init 2 (1 / 2) 3 true with
        processors := ["op"] } : BatchProcessor).processors) ∧
    (alookup ({ BatchProcessor.init 2 (1 / 2) 3 true with
        processors := ["op"] } : BatchProcessor).pending "op" = Option.none) ∧
    ((([("a", []), ("b", [])] :
        List (String × List (String × String))).length : Int) =
      ({ BatchProcessor.init 2 (1 / 2) 3 true with
        processors := ["op"] } : BatchProcessor).getBatchSize "op") ∧
    (([("a", []), ("b", [])] : List (String × List (String × String))) ≠ []) ∧
    ((({ BatchProcessor.init 2 (1 / 2) 3 true with
          processors := ["op"] } : BatchProcessor).addRun "op" 0
        [("a", []), ("b", [])]).2 = 1 ∧
     ((({ BatchProcessor.init 2 (1 / 2) 3 true with
          processors := ["op"] } : BatchProcessor).addRun "op" 0
        [("a", []), ("b", [])]).1.flushBatch "op").2
       = ([("a", []), ("b", [])] :
          List (String × List (String × String))).map
            (fun r => BatchProcessor.mkItem "op" r 0) ∧
     "op" ∉ ((({ BatchProcessor.init 2 (1 / 2) 3 true with
          processors := ["op"] } : BatchProcessor).addRun "op" 0
        [("a", []), ("b", [])]).1.flushBatch "op").1.timers ∧
     alookup ((({ BatchProcessor.init 2 (1 / 2) 3 true with
          processors := ["op"] } : BatchProcessor).addRun "op" 0
        [("a", []), ("b", [])]).1.flushBatch "op").1.pending "op"
       = Option.none ∧
     (((({ BatchProcessor.init 2 (1 / 2) 3 true with
          processors := ["op"] } : BatchProcessor).addRun "op" 0
        [("a", []), ("b", [])]).1.flushBatch "op").1.flushBatch "op").2 = []) :=
  ⟨by decide, by decide, by decide, by decide,
   threshold_flush ({ BatchProcessor.init 2 (1 / 2) 3 true with
       processors := ["op"] } : BatchProcessor) "op" 0
     [("a", []), ("b", [])] (by decide) (by decide) (by decide) (by decide)⟩

/-- **C7 (amended)** — After a successful flush, `_adapt_parameters`
tunes the per-kind batch threshold from its current value: > 0.95
success rate grows it by 10% capped at 2× the configured base, < 0.8
shrinks it by 10% floored at 1, otherwise unchanged, the result
truncated to an integer.  The wait window, however, is recomputed from
the configured base wait time each call (min(1.2·base, 2.0) above
100 items/s, max(0.8·base, 0.1) below 10 items/s, and reset to the base
otherwise) — it does not depend on the kind's current wait window. -/
theorem adapt_parameters_tuning (bp : BatchProcessor) (op : String)
    (bs : Nat) (pt : ℚ) :
    ((bp.adaptParameters op bs pt).getBatchSizeRaw op =
      BatchProcessor.pyInt
        (if bp.getSuccessRate op > 95 / 100 then
          min ((bp.getBatchSizeRaw op : ℚ) * (11 / 10)) ((bp.batch_size : ℚ) * 2)
        else if bp.getSuccessRate op < 8 / 10 then
          max ((bp.getBatchSizeRaw op : ℚ) * (9 / 10)) 1
        else (bp.getBatchSizeRaw op : ℚ))) ∧
    ((bp.adaptParameters op bs pt).getWaitTimeRaw op =
      (if (if pt > 0 then (bs : ℚ) / pt else (bs : ℚ)) > 100 then
        min (bp.wait_time * (12 / 10)) 2
      else if (if pt > 0 then (bs : ℚ) / pt else (bs : ℚ)) < 10 then
        max (bp.wait_time * (8 / 10)) (1 / 10)
      else bp.wait_time)) ∧
    (∀ q : ℚ,
      (BatchProcessor.adaptParameters
          { bp with wait_times := aupsert bp.wait_times op q } op bs pt).getWaitTimeRaw op
        = (bp.adaptParameters op bs pt).getWaitTimeRaw op) := by
  refine ⟨?_, ?_, ?_⟩
  · simp [BatchProcessor.adaptParameters, BatchProcessor.getBatchSizeRaw,
      alookup_aupsert_self]
  · simp [BatchProcessor.adaptParameters, BatchProcessor.getWaitTimeRaw,
      alookup_aupsert_self]
  · intro q
    simp [BatchProcessor.adaptParameters, BatchProcessor.getWaitTimeRaw,
      BatchProcessor.getSuccessRate, BatchProcessor.getBatchSizeRaw,
      alookup_aupsert_self]

/-- Counterexample to C7 as stated: base wait 0.5 s.  A first re-tune at
1 item/s shrinks the kind's wait window to 0.4 s; a second re-tune at
50 items/s (between the 10/s and 100/s bounds, where the claim says the
window is unchanged) resets it to the 0.5 s base instead of keeping
0.4 s. -/
theorem adapt_wait_not_unchanged_counterexample :
    ((5 : ℚ) / (1 / 10) = 50) ∧ ((10 : ℚ) < 50) ∧ ((50 : ℚ) < 100) ∧
    (((BatchProcessor.init 50 (1 / 2) 3 true).adaptParameters "op" 1
        1).getWaitTimeRaw "op" = 2 / 5) ∧
    ((((BatchProcessor.init 50 (1 / 2) 3 true).adaptParameters "op" 1
        1).adaptParameters "op" 5 (1 / 10)).getWaitTimeRaw "op" = 1 / 2) ∧
    ((2 / 5 : ℚ) ≠ 1 / 2) := by
  refine ⟨by norm_num, by norm_num, by norm_num, ?_, ?_, by norm_num⟩
  · norm_num [BatchProcessor.adaptParameters, BatchProcessor.getWaitTimeRaw,
      BatchProcessor.getSuccessRate, BatchProcessor.getBatchSizeRaw,
      BatchProcessor.init, BatchProcessor.pyInt, alookup_aupsert_self, alookup,
      aupsert, min_def, max_def]
  · norm_num [BatchProcessor.adaptParameters, BatchProcessor.getWaitTimeRaw,
      BatchProcessor.getSuccessRate, BatchProcessor.getBatchSizeRaw,
      BatchProcessor.init, BatchProcessor.pyInt, alookup_aupsert_self, alookup,
      aupsert, min_def, max_def]

/-! ## CacheManager (`cache_manager.py`)

Three tiers: L1 in-memory LRU, L2 optional Redis-backed store holding
serialised strings with a per-key TTL, L3 persistent table with optional
absolute expiry.  `PyVal.none` is Python's `None`. -/

inductive PyVal where
  | none
  | bool (b : Bool)
  | int (n : Int)
  | str (s : String)
  deriving Repr, DecidableEq

/-- `json.dumps` for the values above. -/
def dumps : PyVal → String
  | PyVal.none => "null"
  | PyVal.bool true => "true"
  | PyVal.bool false => "false"
  | PyVal.int n => toString n
  | PyVal.str s => "\"" ++ s ++ "\""

/-- Digit-string parser backing `loads` for JSON integers. -/
def parseNat : List Char → Option Nat
  | [] => Option.none
  | cs => cs.foldl
      (fun acc c =>
        match acc with
        | some n =>
            if 48 ≤ c.toNat ∧ c.toNat ≤ 57 then some (n * 10 + (c.toNat - 48))
            else Option.none
        | Option.none => Option.none)
      (some 0)

def parseInt (s : String) : Option Int :=
  match s.data with
  | '-' :: rest => (parseNat rest).map (fun n => -(n : Int))
  | cs => (parseNat cs).map (fun n => (n : Int))

/-- `json.loads`, inverse of `dumps` on its range. -/
def loads (s : String) : PyVal :=
  if s = "null" then PyVal.none
  else if s = "true" then PyVal.bool true
  else if s = "false" then PyVal.bool false
  else
    match parseInt s with
    | some n => PyVal.int n
    | Option.none => PyVal.str ((s.drop 1).dropRight 1)

structure CacheStats where
  hits : Nat
  misses : Nat
  evictions : Nat
  promotions : Nat
  deriving Repr, DecidableEq

def CacheStats.init : CacheStats :=
  { hits := 0, misses := 0, evictions := 0, promotions := 0 }

/-- `CacheStats.hit_rate = hits / (hits + misses)` (0 when no accesses). -/
def CacheStats.hit_rate (s : CacheStats) : ℚ :=
  if s.hits + s.misses > 0 then (s.hits : ℚ) / ((s.hits : ℚ) + (s.misses : ℚ))
  else 0

/-- L1: in-memory LRU cache; the list keeps the most recently used entry
first, so eviction drops the last entry. -/
structure L1Cache where
  cache : List (String × PyVal)
  maxsize : Nat
  stats : CacheStats
  deriving Repr, DecidableEq

namespace L1Cache

def init (maxsize : Nat) : L1Cache :=
  { cache := [], maxsize := maxsize, stats := CacheStats.init }

/-- `L1Cache.get`: `cache.get(key)` (refreshing recency on a present
key) then a hit iff the value `is not None` — a stored `None` counts as
a miss exactly like a missing key. -/
def get (c : L1Cache) (key : String) : L1Cache × PyVal :=
  match alookup c.cache key with
  | Option.none =>
      ({ c with stats := { c.stats with misses := c.stats.misses + 1 } },
       PyVal.none)
  | some v =>
      let c := { c with cache := (key, v) :: aerase c.cache key }
      if v = PyVal.none then
        ({ c with stats := { c.stats with misses := c.stats.misses + 1 } },
         PyVal.none)
      else
        ({ c with stats := { c.stats with hits := c.stats.hits + 1 } }, v)

/-- `L1Cache.set`: count an eviction when inserting a new key at
capacity, then `LRUCache.__setitem__` (overwrite in place, or insert
evicting the least recently used entry when full). -/
def set (c : L1Cache) (key : String) (v : PyVal) : L1Cache :=
  let c :=
    if c.cache.length ≥ c.maxsize ∧ alookup c.cache key = Option.none then
      { c with stats := { c.stats with evictions := c.stats.evictions + 1 } }
    else c
  match alookup c.cache key with
  | some _ => { c with cache := (key, v) :: aerase c.cache key }
  | Option.none =>
      let cache := if c.cache.length ≥ c.maxsize then c.cache.dropLast else c.cache
      { c with cache := (key, v) :: cache }

end L1Cache

/-- L2: optional Redis tier; keys are namespaced with "pm_intel:", the
stored value is the serialised string, with a per-key TTL. -/
structure L2Cache where
  enabled : Bool
  ttl : Nat
  store : List (String × (String × Nat))
  stats : CacheStats
  deriving Repr, DecidableEq

namespace L2Cache

def init (enabled : Bool) (ttl : Nat) : L2Cache :=
  { enabled := enabled, ttl := ttl, store := [], stats := CacheStats.init }

/-- `L2Cache.get`: a disabled tier returns `None` without touching
stats; otherwise a present key is a hit iff the raw serialised value is
truthy (`if value:`), i.e. non-empty, else a miss. -/
def get (c : L2Cache) (key : String) : L2Cache × PyVal :=
  if c.enabled = false then (c, PyVal.none)
  else
    match alookup c.store ("pm_intel:" ++ key) with
    | some sv =>
        if sv.1 ≠ "" then
          ({ c with stats := { c.stats with hits := c.stats.hits + 1 } },
           loads sv.1)
        else
          ({ c with stats := { c.stats with misses := c.stats.misses + 1 } },
           PyVal.none)
    | Option.none =>
        ({ c with stats := { c.stats with misses := c.stats.misses + 1 } },
         PyVal.none)

/-- `L2Cache.set`: `setex(prefix + key, self.ttl, json.dumps(value))` —
always the tier's own default TTL. -/
def set (c : L2Cache) (key : String) (v : PyVal) : L2Cache :=
  if c.enabled = false then c
  else { c with store := aupsert c.store ("pm_intel:" ++ key) (dumps v, c.ttl) }

end L2Cache

/-- One row of the persistent cache table. -/
structure L3Row where
  value : String
  expires_at : Option Int
  created_at : Int
  deriving Repr, DecidableEq

/-- L3: persistent (SQLite) tier. -/
structure L3Cache where
  table : List (String × L3Row)
  stats : CacheStats
  deriving Repr, DecidableEq

namespace L3Cache

def init : L3Cache := { table := [], stats := CacheStats.init }

/-- `expires_at = int(time.time() + ttl) if ttl else None`: a falsy ttl
(`None` or `0`) stores no expiry. -/
def expiryOf (now : Int) (ttl : Option Int) : Option Int :=
  match ttl with
  | some t => if t = 0 then Option.none else some (now + t)
  | Option.none => Option.none

/-- `L3Cache.set`: INSERT OR REPLACE (upsert). -/
def set (c : L3Cache) (now : Int) (key : String) (v : PyVal)
    (ttl : Option Int) : L3Cache :=
  let row : L3Row :=
    { value := dumps v, expires_at := expiryOf now ttl, created_at := now }
  { c with table := aupsert c.table key row }

/-- `expires_at IS NOT NULL AND expires_at <= now`. -/
def expired (now : Int) (r : L3Row) : Bool :=
  match r.expires_at with
  | some e => decide (e ≤ now)
  | Option.none => false

/-- `_cleanup_expired`: delete every expired row, incrementing the
eviction counter once per deleted row. -/
def cleanupExpired (c : L3Cache) (now : Int) : L3Cache :=
  let removed := (c.table.filter (fun kv => expired now kv.2)).length
  { c with table := c.table.filter (fun kv => !expired now kv.2),
           stats := { c.stats with evictions := c.stats.evictions + removed } }

/-- `L3Cache.get`: lazy sweep immediately before the read, then select
the row for the key subject to `expires_at IS NULL OR expires_at > now`. -/
def get (c : L3Cache) (now : Int) (key : String) : L3Cache × PyVal :=
  let c := cleanupExpired c now
  match alookup c.table key with
  | some r =>
      if expired now r then
        ({ c with stats := { c.stats with misses := c.stats.misses + 1 } },
         PyVal.none)
      else
        ({ c with stats := { c.stats with hits := c.stats.hits + 1 } },
         loads r.value)
  | Option.none =>
      ({ c with stats := { c.stats with misses := c.stats.misses + 1 } },
       PyVal.none)

end L3Cache

structure CacheManager where
  l1_cache : L1Cache
  l2_cache : L2Cache
  l3_cache : L3Cache
  deriving Repr, DecidableEq

namespace CacheManager

def init (l1_size : Nat) (l2_enabled : Bool) (l2_ttl : Nat) : CacheManager :=
  { l1_cache := L1Cache.init l1_size,
    l2_cache := L2Cache.init l2_enabled l2_ttl,
    l3_cache := L3Cache.init }

/-- `_promote(key, value, to_level)`: write into L1 (counting a
promotion), and into L2 as well when `to_level ≥ 2` and L2 is enabled. -/
def promote (m : CacheManager) (key : String) (v : PyVal) (toLevel : Nat) :
    CacheManager :=
  let m :=
    if toLevel ≥ 1 then
      let l1 := m.l1_cache.set key v
      { m with l1_cache :=
          { l1 with stats := { l1.stats with promotions := l1.stats.promotions + 1 } } }
    else m
  if toLevel ≥ 2 ∧ m.l2_cache.enabled = true then
    let l2 := m.l2_cache.set key v
    { m with l2_cache :=
        { l2 with stats := { l2.stats with promotions := l2.stats.promotions + 1 } } }
  else m

/-- `CacheManager.get`: L1 → L2 → L3 in order, promoting on a
lower-tier hit; a tier's answer counts only when it `is not None`. -/
def get (m : CacheManager) (now : Int) (key : String) : CacheManager × PyVal :=
  let r1 := m.l1_cache.get key
  let m := { m with l1_cache := r1.1 }
  if r1.2 ≠ PyVal.none then (m, r1.2)
  else
    let r2 := m.l2_cache.get key
    let m := { m with l2_cache := r2.1 }
    if r2.2 ≠ PyVal.none then (m.promote key r2.2 1, r2.2)
    else
      let r3 := m.l3_cache.get now key
      let m := { m with l3_cache := r3.1 }
      if r3.2 ≠ PyVal.none then (m.promote key r3.2 2, r3.2)
      else (m, PyVal.none)

/-- `CacheManager.set(key, value, ttl, levels)`: write to each requested
tier independently; L2 receives no ttl argument, L3 receives the given
one. -/
def set (m : CacheManager) (now : Int) (key : String) (v : PyVal)
    (ttl : Option Int) (levels : List Nat) : CacheManager :=
  let m := if 1 ∈ levels then { m with l1_cache := m.l1_cache.set key v } else m
  let m := if 2 ∈ levels then { m with l2_cache := m.l2_cache.set key v } else m
  if 3 ∈ levels then { m with l3_cache := m.l3_cache.set now key v ttl } else m

/-- `_calculate_overall_hit_rate`: hits of all three tiers over tier-1
accesses only. -/
def calculateOverallHitRate (m : CacheManager) : ℚ :=
  let total_hits :=
    m.l1_cache.stats.hits + m.l2_cache.stats.hits + m.l3_cache.stats.hits
  let total_requests := m.l1_cache.stats.hits + m.l1_cache.stats.misses
  if total_requests > 0 then (total_hits : ℚ) / (total_requests : ℚ) else 0

end CacheManager

namespace L1Cache

theorem get_counts (c : L1Cache) (key : String) :
    (c.get key).1.stats.hits + (c.get key).1.stats.misses
      = c.stats.hits + c.stats.misses + 1 := by
  unfold L1Cache.get
  cases alookup c.cache key with
  | none => simp; omega
  | some v =>
      by_cases hv : v = PyVal.none
      · simp [hv]; omega
      · simp [hv]; omega

theorem set_hits (c : L1Cache) (key : String) (v : PyVal) :
    (c.set key v).stats.hits = c.stats.hits := by
  unfold L1Cache.set
  split_ifs with h <;> (cases hm : alookup c.cache key <;> simp [hm])

theorem set_misses (c : L1Cache) (key : String) (v : PyVal) :
    (c.set key v).stats.misses = c.stats.misses := by
  unfold L1Cache.set
  split_ifs with h <;> (cases hm : alookup c.cache key <;> simp [hm])

theorem set_lookup (c : L1Cache) (key : String) (v : PyVal) :
    alookup (c.set key v).cache key = some v := by
  unfold L1Cache.set
  split_ifs with h <;> (cases hm : alookup c.cache key <;> simp [hm, alookup])

end L1Cache

namespace CacheManager

theorem promote_l1_hits (m : CacheManager) (key : String) (v : PyVal) (L : Nat) :
    (m.promote key v L).l1_cache.stats.hits = m.l1_cache.stats.hits := by
  unfold CacheManager.promote
  by_cases h1 : L ≥ 1 <;> by_cases h2 : 2 ≤ L ∧ m.l2_cache.enabled = true <;>
    simp [h1, h2, L1Cache.set_hits]

theorem promote_l1_misses (m : CacheManager) (key : String) (v : PyVal) (L : Nat) :
    (m.promote key v L).l1_cache.stats.misses = m.l1_cache.stats.misses := by
  unfold CacheManager.promote
  by_cases h1 : L ≥ 1 <;> by_cases h2 : 2 ≤ L ∧ m.l2_cache.enabled = true <;>
    simp [h1, h2, L1Cache.set_misses]

/-- Each `CacheManager.get` performs exactly one tier-1 access. -/
theorem get_one_l1_access (m : CacheManager) (now : Int) (key : String) :
    (m.get now key).1.l1_cache.stats.hits + (m.get now key).1.l1_cache.stats.misses
      = m.l1_cache.stats.hits + m.l1_cache.stats.misses + 1 := by
  have h1 := L1Cache.get_counts m.l1_cache key
  unfold CacheManager.get
  dsimp only
  split_ifs <;>
    simp [promote_l1_hits, promote_l1_misses, h1]

end CacheManager

/-- **C2 (amended)** — The overall hit-rate reported by CacheManager is
`(tier-1 hits + tier-2 hits + tier-3 hits) / (tier-1 hits + tier-1
misses)`: only tier-1 accesses form the denominator (each `get` performs
exactly one tier-1 access), but hits recorded at tiers 2 and 3 DO count
as success events in the numerator. -/
theorem overall_hit_rate_formula (m : CacheManager) (now : Int) (key : String)
    (h : 0 < m.l1_cache.stats.hits + m.l1_cache.stats.misses) :
    (m.calculateOverallHitRate =
      ((m.l1_cache.stats.hits + m.l2_cache.stats.hits + m.l3_cache.stats.hits : Nat) : ℚ)
        / ((m.l1_cache.stats.hits + m.l1_cache.stats.misses : Nat) : ℚ)) ∧
    ((m.get now key).1.l1_cache.stats.hits + (m.get now key).1.l1_cache.stats.misses
      = m.l1_cache.stats.hits + m.l1_cache.stats.misses + 1) :=
  ⟨by simp [CacheManager.calculateOverallHitRate, h],
   CacheManager.get_one_l1_access m now key⟩

/-- Witness for C2 (amended): a manager with one tier-1 miss and one
tier-2 hit on record. -/
theorem overall_hit_rate_formula_witness :
    (0 < (((CacheManager.init 1000 true 3600).set 0 "k" (PyVal.int 1)
        Option.none [2]).get 0 "k").1.l1_cache.stats.hits +
      (((CacheManager.init 1000 true 3600).set 0 "k" (PyVal.int 1)
        Option.none [2]).get 0 "k").1.l1_cache.stats.misses) ∧
    ((((CacheManager.init 1000 true 3600).set 0 "k" (PyVal.int 1)
        Option.none [2]).get 0 "k").1.calculateOverallHitRate =
      (((((CacheManager.init 1000 true 3600).set 0 "k" (PyVal.int 1)
          Option.none [2]).get 0 "k").1.l1_cache.stats.hits +
        (((CacheManager.init 1000 true 3600).set 0 "k" (PyVal.int 1)
          Option.none [2]).get 0 "k").1.l2_cache.stats.hits +
        (((CacheManager.init 1000 true 3600).set 0 "k" (PyVal.int 1)
          Option.none [2]).get 0 "k").1.l3_cache.stats.hits : Nat) : ℚ)
        / (((((CacheManager.init 1000 true 3600).set 0 "k" (PyVal.int 1)
          Option.none [2]).get 0 "k").1.l1_cache.stats.hits +
        (((CacheManager.init 1000 true 3600).set 0 "k" (PyVal.int 1)
          Option.none [2]).get 0 "k").1.l1_cache.stats.misses : Nat) : ℚ)) ∧
    (((((CacheManager.init 1000 true 3600).set 0 "k" (PyVal.int 1)
        Option.none [2]).get 0 "k").1.get 0 "k").1.l1_cache.stats.hits +
      ((((CacheManager.init 1000 true 3600).set 0 "k" (PyVal.int 1)
        Option.none [2]).get 0 "k").1.get 0 "k").1.l1_cache.stats.misses
      = (((CacheManager.init 1000 true 3600).set 0 "k" (PyVal.int 1)
        Option.none [2]).get 0 "k").1.l1_cache.stats.hits +
        (((CacheManager.init 1000 true 3600).set 0 "k" (PyVal.int 1)
        Option.none [2]).get 0 "k").1.l1_cache.stats.misses + 1) :=
  ⟨by decide,
   (overall_hit_rate_formula _ 0 "k" (by decide)).1,
   (overall_hit_rate_formula _ 0 "k" (by decide)).2⟩

/-- Counterexample to C2 as stated: after one `set` into tier 2 only and
one `get` (tier-1 miss, tier-2 hit), the reported overall hit-rate is 1,
while tier-1 hits / (tier-1 hits + tier-1 misses) = 0/1 = 0 — tier-2
hits are counted as success events. -/
theorem overall_hit_rate_counterexample :
    ((((CacheManager.init 1000 true 3600).set 0 "k" (PyVal.int 1)
        Option.none [2]).get 0 "k").1.calculateOverallHitRate = 1) ∧
    ((((CacheManager.init 1000 true 3600).set 0 "k" (PyVal.int 1)
        Option.none [2]).get 0 "k").1.l1_cache.stats.hits = 0) ∧
    ((((CacheManager.init 1000 true 3600).set 0 "k" (PyVal.int 1)
        Option.none [2]).get 0 "k").1.l1_cache.stats.misses = 1) ∧
    ((((CacheManager.init 1000 true 3600).set 0 "k" (PyVal.int 1)
        Option.none [2]).get 0 "k").1.l2_cache.stats.hits = 1) ∧
    ((0 : ℚ) / ((0 : ℚ) + (1 : ℚ)) = 0) ∧ ((1 : ℚ) ≠ 0) := by
  have h1 : (((CacheManager.init 1000 true 3600).set 0 "k" (PyVal.int 1)
      Option.none [2]).get 0 "k").1.l1_cache.stats.hits = 0 := by decide
  have h2 : (((CacheManager.init 1000 true 3600).set 0 "k" (PyVal.int 1)
      Option.none [2]).get 0 "k").1.l1_cache.stats.misses = 1 := by decide
  have h3 : (((CacheManager.init 1000 true 3600).set 0 "k" (PyVal.int 1)
      Option.none [2]).get 0 "k").1.l2_cache.stats.hits = 1 := by decide
  have h4 : (((CacheManager.init 1000 true 3600).set 0 "k" (PyVal.int 1)
      Option.none [2]).get 0 "k").1.l3_cache.stats.hits = 0 := by decide
  refine ⟨?_, h1, h2, h3, by norm_num, by norm_num⟩
  simp only [CacheManager.calculateOverallHitRate, h1, h2, h3, h4]
  norm_num

theorem cacheSet_l1_lookup (m : CacheManager) (now : Int) (key : String)
    (v : PyVal) (ttl : Option Int) (levels : List Nat) (h : 1 ∈ levels) :
    alookup ((m.set now key v ttl levels).l1_cache.cache) key = some v := by
  unfold CacheManager.set
  by_cases h2 : 2 ∈ levels <;> by_cases h3 : 3 ∈ levels <;>
    simp [h, h2, h3, L1Cache.set_lookup, L2Cache.set, L3Cache.set]

theorem cacheSet_l2_lookup (m : CacheManager) (now : Int) (key : String)
    (v : PyVal) (ttl : Option Int) (levels : List Nat) (h : 2 ∈ levels)
    (he : m.l2_cache.enabled = true) :
    alookup ((m.set now key v ttl levels).l2_cache.store) ("pm_intel:" ++ key)
      = some (dumps v, m.l2_cache.ttl) := by
  unfold CacheManager.set
  by_cases h1 : 1 ∈ levels <;> by_cases h3 : 3 ∈ levels <;>
    simp [h, h1, h3, L2Cache.set, L3Cache.set, he, alookup_aupsert_self]

theorem cacheSet_l3_lookup (m : CacheManager) (now : Int) (key : String)
    (v : PyVal) (ttl : Option Int) (levels : List Nat) (h : 3 ∈ levels) :
    alookup ((m.set now key v ttl levels).l3_cache.table) key
      = some { value := dumps v, expires_at := L3Cache.expiryOf now ttl,
               created_at := now } := by
  unfold CacheManager.set
  by_cases h1 : 1 ∈ levels <;> by_cases h2 : 2 ∈ levels <;>
    simp [h, h1, h2, L3Cache.set, alookup_aupsert_self]

/-- **C8 (amended)** — `CacheManager.set`: tier 1 is an unconditional
overwrite; tier 3 stores the given ttl as an absolute expiry when it is
non-falsy (no expiry for ttl None or 0); tier 2, however, always stores
with its own configured default TTL — the supplied ttl is never passed
to tier 2. -/
theorem cache_set_tiers (m : CacheManager) (now : Int) (key : String)
    (v : PyVal) (ttl : Option Int) (levels : List Nat) :
    (1 ∈ levels →
      alookup ((m.set now key v ttl levels).l1_cache.cache) key = some v) ∧
    (2 ∈ levels → m.l2_cache.enabled = true →
      alookup ((m.set now key v ttl levels).l2_cache.store) ("pm_intel:" ++ key)
        = some (dumps v, m.l2_cache.ttl)) ∧
    (3 ∈ levels →
      alookup ((m.set now key v ttl levels).l3_cache.table) key
        = some { value := dumps v, expires_at := L3Cache.expiryOf now ttl,
                 created_at := now }) :=
  ⟨cacheSet_l1_lookup m now key v ttl levels,
   cacheSet_l2_lookup m now key v ttl levels,
   cacheSet_l3_lookup m now key v ttl levels⟩

/-- Counterexample to C8 as stated: `set(key, 7, ttl=5, levels=[2])` on a
manager whose L2 default TTL is 3600 stores the tier-2 entry with TTL
3600, not the supplied 5. -/
theorem l2_ttl_ignored_counterexample :
    (alookup (((CacheManager.init 1000 true 3600).set 0 "k" (PyVal.int 7)
        (some 5) [2]).l2_cache.store) "pm_intel:k"
      = some (dumps (PyVal.int 7), 3600)) ∧ ((3600 : Nat) ≠ 5) :=
  ⟨by decide, by decide⟩

/-- Witness for C8 (amended) at a concrete set into all three tiers. -/
theorem cache_set_tiers_witness :
    (alookup (((CacheManager.init 1000 true 3600).set 0 "k" (PyVal.int 7)
        (some 5) [1, 2, 3]).l1_cache.cache) "k" = some (PyVal.int 7)) ∧
    (alookup (((CacheManager.init 1000 true 3600).set 0 "k" (PyVal.int 7)
        (some 5) [1, 2, 3]).l2_cache.store) ("pm_intel:" ++ "k")
      = some (dumps (PyVal.int 7),
          (CacheManager.init 1000 true 3600).l2_cache.ttl)) ∧
    (alookup (((CacheManager.init 1000 true 3600).set 0 "k" (PyVal.int 7)
        (some 5) [1, 2, 3]).l3_cache.table) "k"
      = some { value := dumps (PyVal.int 7),
               expires_at := L3Cache.expiryOf 0 (some 5), created_at := 0 }) :=
  ⟨(cache_set_tiers (CacheManager.init 1000 true 3600) 0 "k" (PyVal.int 7)
      (some 5) [1, 2, 3]).1 (by decide),
   (cache_set_tiers (CacheManager.init 1000 true 3600) 0 "k" (PyVal.int 7)
      (some 5) [1, 2, 3]).2.1 (by decide) (by decide),
   (cache_set_tiers (CacheManager.init 1000 true 3600) 0 "k" (PyVal.int 7)
      (some 5) [1, 2, 3]).2.2 (by decide)⟩

theorem alookup_filter_none {α : Type} (l : List (String × α)) (k : String)
    (p : String × α → Bool) (h : ∀ v, (k, v) ∈ l → p (k, v) = false) :
    alookup (l.filter p) k = Option.none := by
  induction l with
  | nil => simp [alookup]
  | cons hd tl ih =>
      obtain ⟨k', v'⟩ := hd
      by_cases hk : k' = k
      · subst hk
        have hp : p (k', v') = false := h v' (by simp)
        simp only [List.filter_cons, hp, Bool.false_eq_true, if_false]
        exact ih (fun v hv => h v (by simp [hv]))
      · cases hp : p (k', v') with
        | true =>
            simp only [List.filter_cons, hp, if_true]
            simp only [alookup, hk, if_false]
            exact ih (fun v hv => h v (by simp [hv]))
        | false =>
            simp only [List.filter_cons, hp, Bool.false_eq_true, if_false]
            exact ih (fun v hv => h v (by simp [hv]))

/-- **C1 (amended)** — Tier-3 expiry: the lazy sweep run immediately
before each read keeps exactly the rows not yet expired at the read
time, incrementing the eviction counter once per deleted row; a key all
of whose rows have expired reads as absent (recording a miss).  A ttl of
0, however, is falsy in `L3Cache.set` and stores NO expiry — the entry
never expires. -/
theorem l3_expiry_sweep (c : L3Cache) (now : Int) (key : String) :
    (∀ kv : String × L3Row, kv ∈ (L3Cache.cleanupExpired c now).table ↔
        kv ∈ c.table ∧ L3Cache.expired now kv.2 = false) ∧
    ((L3Cache.cleanupExpired c now).stats.evictions
        = c.stats.evictions
          + (c.table.filter (fun kv => L3Cache.expired now kv.2)).length) ∧
    ((∀ r : L3Row, (key, r) ∈ c.table → L3Cache.expired now r = true) →
      (c.get now key).2 = PyVal.none ∧
      (c.get now key).1.stats.misses = c.stats.misses + 1 ∧
      alookup (c.get now key).1.table key = Option.none) ∧
    (∀ (v : PyVal) (t : Int), L3Cache.expiryOf t (some 0) = Option.none ∧
      (c.set t key v (some 0)).table =
        aupsert c.table key
          { value := dumps v, expires_at := Option.none, created_at := t }) := by
  refine ⟨?_, ?_, ?_, ?_⟩
  · intro kv
    simp [L3Cache.cleanupExpired, List.mem_filter]
  · simp [L3Cache.cleanupExpired]
  · intro hall
    have hnone : alookup ((L3Cache.cleanupExpired c now).table) key = Option.none := by
      apply alookup_filter_none
      intro v hv
      simp [hall v hv]
    unfold L3Cache.get
    dsimp only
    rw [hnone]
    exact ⟨rfl, rfl, hnone⟩
  · intro v t
    refine ⟨rfl, ?_⟩
    simp [L3Cache.set, L3Cache.expiryOf]

/-- Counterexample to C1 as stated: `set(k, 42, ttl=0)` stores no
expiry, so a read a billion seconds later still returns the value (the
claim demands absent) and the tier-3 eviction counter stays 0 (the claim
demands an increase). -/
theorem ttl_zero_no_expiry_counterexample :
    ((((CacheManager.init 1000 false 3600).set 0 "k" (PyVal.int 42) (some 0)
        [3]).get 1000000000 "k").2 = PyVal.int 42) ∧
    ((((CacheManager.init 1000 false 3600).set 0 "k" (PyVal.int 42) (some 0)
        [3]).get 1000000000 "k").1.l3_cache.stats.evictions = 0) ∧
    (PyVal.int 42 ≠ PyVal.none) :=
  ⟨by decide, by decide, by decide⟩

/-- Witness for C1 (amended): a table holding one row for "k" that
expired at time 5, read at time 10. -/
theorem l3_expiry_sweep_witness :
    ((∀ r : L3Row, ("k", r) ∈ (L3Cache.mk
        [("k", L3Row.mk "\"v\"" (some 5) 0)] CacheStats.init).table →
        L3Cache.expired 10 r = true)) ∧
    (((L3Cache.mk [("k", L3Row.mk "\"v\"" (some 5) 0)]
        CacheStats.init).get 10 "k").2 = PyVal.none) ∧
    (((L3Cache.mk [("k", L3Row.mk "\"v\"" (some 5) 0)]
        CacheStats.init).get 10 "k").1.stats.misses =
      (L3Cache.mk [("k", L3Row.mk "\"v\"" (some 5) 0)]
        CacheStats.init).stats.misses + 1) ∧
    (alookup (((L3Cache.mk [("k", L3Row.mk "\"v\"" (some 5) 0)]
        CacheStats.init).get 10 "k").1.table) "k" = Option.none) ∧
    (((L3Cache.cleanupExpired (L3Cache.mk
        [("k", L3Row.mk "\"v\"" (some 5) 0)] CacheStats.init) 10).stats.evictions
      = (L3Cache.mk [("k", L3Row.mk "\"v\"" (some 5) 0)]
          CacheStats.init).stats.evictions
        + ((L3Cache.mk [("k", L3Row.mk "\"v\"" (some 5) 0)]
            CacheStats.init).table.filter
              (fun kv => L3Cache.expired 10 kv.2)).length)) :=
  ⟨by intro r hr; simp at hr; subst hr; decide,
   ((l3_expiry_sweep (L3Cache.mk [("k", L3Row.mk "\"v\"" (some 5) 0)]
       CacheStats.init) 10 "k").2.2.1
     (by intro r hr; simp at hr; subst hr; decide)).1,
   ((l3_expiry_sweep (L3Cache.mk [("k", L3Row.mk "\"v\"" (some 5) 0)]
       CacheStats.init) 10 "k").2.2.1
     (by intro r hr; simp at hr; subst hr; decide)).2.1,
   ((l3_expiry_sweep (L3Cache.mk [("k", L3Row.mk "\"v\"" (some 5) 0)]
       CacheStats.init) 10 "k").2.2.1
     (by intro r hr; simp at hr; subst hr; decide)).2.2,
   (l3_expiry_sweep (L3Cache.mk [("k", L3Row.mk "\"v\"" (some 5) 0)]
       CacheStats.init) 10 "k").2.1⟩

theorem alookup_filter_some {α : Type} (l : List (String × α)) (k : String)
    (p : String × α → Bool) (v : α) (h : alookup l k = some v)
    (hp : p (k, v) = true) : alookup (l.filter p) k = some v := by
  induction l with
  | nil => simp [alookup] at h
  | cons hd tl ih =>
      obtain ⟨k', v'⟩ := hd
      by_cases hk : k' = k
      · subst hk
        simp only [alookup, if_pos rfl] at h
        obtain rfl : v' = v := by injection h
        simp only [List.filter_cons, hp, if_true, alookup, if_pos rfl]
      · simp only [alookup, hk, if_false] at h
        cases hq : p (k', v') with
        | true =>
            simp only [List.filter_cons, hq, if_true, alookup, hk, if_false]
            exact ih h
        | false =>
            simp only [List.filter_cons, hq, Bool.false_eq_true, if_false]
            exact ih h

theorem alookup_none_filter {α : Type} (l : List (String × α)) (k : String)
    (p : String × α → Bool) (h : alookup l k = Option.none) :
    alookup (l.filter p) k = Option.none := by
  induction l with
  | nil => simp [alookup]
  | cons hd tl ih =>
      obtain ⟨k', v'⟩ := hd
      by_cases hk : k' = k
      · simp [alookup, hk] at h
      · simp only [alookup, hk, if_false] at h
        cases hq : p (k', v') with
        | true =>
            simp only [List.filter_cons, hq, if_true, alookup, hk, if_false]
            exact ih h
        | false =>
            simp only [List.filter_cons, hq, Bool.false_eq_true, if_false]
            exact ih h

theorem alookup_eq_none_of_not_mem {α : Type} (l : List (String × α))
    (k : String) (h : k ∉ l.map Prod.fst) : alookup l k = Option.none := by
  induction l with
  | nil => rfl
  | cons hd tl ih =>
      obtain ⟨k', v'⟩ := hd
      simp only [List.map_cons, List.mem_cons] at h
      push_neg at h
      have hk : k' ≠ k := fun e => h.1 e.symm
      simp [alookup, hk, ih h.2]

theorem alookup_filter_of_nodup {α : Type} (l : List (String × α)) (k : String)
    (p : String × α → Bool) (v : α) (h : alookup l k = some v)
    (hnd : (l.map Prod.fst).Nodup) (hp : p (k, v) = false) :
    alookup (l.filter p) k = Option.none := by
  induction l with
  | nil => simp [alookup] at h
  | cons hd tl ih =>
      obtain ⟨k', v'⟩ := hd
      simp only [List.map_cons, List.nodup_cons] at hnd
      by_cases hk : k' = k
      · subst hk
        simp only [alookup, if_pos rfl] at h
        obtain rfl : v' = v := by injection h
        simp only [List.filter_cons, hp, Bool.false_eq_true, if_false]
        exact alookup_none_filter tl k' p (alookup_eq_none_of_not_mem tl k' hnd.1)
      · simp only [alookup, hk, if_false] at h
        cases hq : p (k', v') with
        | true =>
            simp only [List.filter_cons, hq, if_true, alookup, hk, if_false]
            exact ih h hnd.2
        | false =>
            simp only [List.filter_cons, hq, Bool.false_eq_true, if_false]
            exact ih h hnd.2

theorem aupsert_cons_eq {α : Type} (tl : List (String × α)) (k' k : String)
    (v' v : α) :
    aupsert ((k', v') :: tl) k v
      = if k' = k then (k', v) :: tl else (k', v') :: aupsert tl k v := rfl

theorem aupsert_keys_subset {α : Type} (l : List (String × α)) (k : String)
    (v : α) : ∀ x, x ∈ (aupsert l k v).map Prod.fst →
      x = k ∨ x ∈ l.map Prod.fst := by
  induction l with
  | nil =>
      intro x hx
      simp [aupsert] at hx
      exact Or.inl hx
  | cons hd tl ih =>
      obtain ⟨k', v'⟩ := hd
      intro x hx
      rw [aupsert_cons_eq] at hx
      by_cases hk : k' = k
      · rw [if_pos hk, List.map_cons, List.mem_cons] at hx
        rcases hx with hx | hx
        · exact Or.inl (hx.trans hk)
        · exact Or.inr (by rw [List.map_cons]; exact List.mem_cons_of_mem _ hx)
      · rw [if_neg hk, List.map_cons, List.mem_cons] at hx
        rcases hx with hx | hx
        · refine Or.inr ?_
          rw [List.map_cons, hx]
          exact List.mem_cons_self _ _
        · rcases ih x hx with h' | h'
          · exact Or.inl h'
          · exact Or.inr (by rw [List.map_cons]; exact List.mem_cons_of_mem _ h')

theorem aupsert_keys_nodup {α : Type} (l : List (String × α)) (k : String)
    (v : α) (h : (l.map Prod.fst).Nodup) :
    ((aupsert l k v).map Prod.fst).Nodup := by
  induction l with
  | nil => simp [aupsert]
  | cons hd tl ih =>
      obtain ⟨k', v'⟩ := hd
      rw [List.map_cons, List.nodup_cons] at h
      rw [aupsert_cons_eq]
      by_cases hk : k' = k
      · rw [if_pos hk, List.map_cons, List.nodup_cons]
        exact ⟨h.1, h.2⟩
      · rw [if_neg hk, List.map_cons, List.nodup_cons]
        refine ⟨?_, ih h.2⟩
        intro hmem
        rcases aupsert_keys_subset tl k v k' hmem with h' | h'
        · exact hk h'
        · exact h.1 h'

namespace L1Cache

theorem get_none_stored (c : L1Cache) (key : String)
    (h : alookup c.cache key = some PyVal.none) :
    c.get key =
      ({ c with
          cache := (key, PyVal.none) :: aerase c.cache key
          stats := { c.stats with misses := c.stats.misses + 1 } },
       PyVal.none) := by
  simp [L1Cache.get, h]

end L1Cache

namespace L2Cache

theorem get_serialized_none (c : L2Cache) (key : String)
    (h : c.enabled = true → ∃ t : Nat,
        alookup c.store ("pm_intel:" ++ key) = some ("null", t)) :
    (c.get key).2 = PyVal.none := by
  unfold L2Cache.get
  cases he : c.enabled with
  | false => simp
  | true =>
      obtain ⟨t, ht⟩ := h he
      simp [ht, loads]

end L2Cache

namespace L3Cache

theorem get_null_value (c : L3Cache) (now : Int) (key : String) (r : L3Row)
    (h : alookup c.table key = some r) (hv : r.value = "null")
    (hnd : (c.table.map Prod.fst).Nodup) :
    (c.get now key).2 = PyVal.none := by
  unfold L3Cache.get
  dsimp only
  cases hexp : L3Cache.expired now r with
  | false =>
      have hkeep : alookup ((c.cleanupExpired now).table) key = some r := by
        unfold L3Cache.cleanupExpired
        dsimp only
        exact alookup_filter_some c.table key _ r h (by simp [hexp])
      rw [hkeep]
      simp [hexp, hv, loads]
  | true =>
      have hgone : alookup ((c.cleanupExpired now).table) key = Option.none := by
        unfold L3Cache.cleanupExpired
        dsimp only
        exact alookup_filter_of_nodup c.table key _ r h hnd (by simp [hexp])
      rw [hgone]

end L3Cache

/-- **C10** — A cached `None` is indistinguishable from a missing key at
the `get` interface: after `set(key, None)` into all tiers, `get(key)`
returns absent and records a tier-1 miss (tier-1 hits unchanged), even
though the write created an entry in every requested tier; and at tier
2, any stored value whose serialised form is falsy (the empty string)
likewise reads as a miss. -/
theorem cached_none_invisible (m : CacheManager) (now now' : Int) (key : String)
    (ttl : Option Int) (hnd : (m.l3_cache.table.map Prod.fst).Nodup) :
    (alookup ((m.set now key PyVal.none ttl [1, 2, 3]).l1_cache.cache) key
      = some PyVal.none) ∧
    (m.l2_cache.enabled = true →
      alookup ((m.set now key PyVal.none ttl [1, 2, 3]).l2_cache.store)
          ("pm_intel:" ++ key) = some ("null", m.l2_cache.ttl)) ∧
    (alookup ((m.set now key PyVal.none ttl [1, 2, 3]).l3_cache.table) key
      = some { value := "null", expires_at := L3Cache.expiryOf now ttl,
               created_at := now }) ∧
    (((m.set now key PyVal.none ttl [1, 2, 3]).get now' key).2 = PyVal.none) ∧
    (((m.set now key PyVal.none ttl [1, 2, 3]).get now' key).1.l1_cache.stats.misses
      = (m.set now key PyVal.none ttl [1, 2, 3]).l1_cache.stats.misses + 1) ∧
    (((m.set now key PyVal.none ttl [1, 2, 3]).get now' key).1.l1_cache.stats.hits
      = (m.set now key PyVal.none ttl [1, 2, 3]).l1_cache.stats.hits) ∧
    (∀ (c : L2Cache) (t : Nat), c.enabled = true →
      alookup c.store ("pm_intel:" ++ key) = some ("", t) →
      (c.get key).2 = PyVal.none ∧
      (c.get key).1.stats.misses = c.stats.misses + 1) := by
  have h1 : alookup ((m.set now key PyVal.none ttl [1, 2, 3]).l1_cache.cache) key
      = some PyVal.none := cacheSet_l1_lookup m now key PyVal.none ttl _ (by simp)
  have henb : (m.set now key PyVal.none ttl [1, 2, 3]).l2_cache.enabled
      = m.l2_cache.enabled := by
    unfold CacheManager.set L2Cache.set
    cases he : m.l2_cache.enabled <;> simp [he]
  have h2 : m.l2_cache.enabled = true →
      alookup ((m.set now key PyVal.none ttl [1, 2, 3]).l2_cache.store)
        ("pm_intel:" ++ key) = some ("null", m.l2_cache.ttl) := fun he =>
    cacheSet_l2_lookup m now key PyVal.none ttl _ (by simp) he
  have h3 : alookup ((m.set now key PyVal.none ttl [1, 2, 3]).l3_cache.table) key
      = some { value := "null", expires_at := L3Cache.expiryOf now ttl,
               created_at := now } :=
    cacheSet_l3_lookup m now key PyVal.none ttl _ (by simp)
  have hnd' : ((m.set now key PyVal.none ttl [1, 2, 3]).l3_cache.table.map
      Prod.fst).Nodup := by
    have htab : (m.set now key PyVal.none ttl [1, 2, 3]).l3_cache.table
        = aupsert m.l3_cache.table key
            { value := dumps PyVal.none, expires_at := L3Cache.expiryOf now ttl,
              created_at := now } := by
      unfold CacheManager.set L3Cache.set
      simp
    rw [htab]
    exact aupsert_keys_nodup _ _ _ hnd
  have hget1 := L1Cache.get_none_stored
    (m.set now key PyVal.none ttl [1, 2, 3]).l1_cache key h1
  have hget2 : ((m.set now key PyVal.none ttl [1, 2, 3]).l2_cache.get key).2
      = PyVal.none := by
    apply L2Cache.get_serialized_none
    intro he
    rw [henb] at he
    exact ⟨m.l2_cache.ttl, h2 he⟩
  have hget3 : ((m.set now key PyVal.none ttl [1, 2, 3]).l3_cache.get now' key).2
      = PyVal.none :=
    L3Cache.get_null_value _ now' key _ h3 rfl hnd'
  refine ⟨h1, h2, h3, ?_, ?_, ?_, ?_⟩
  · unfold CacheManager.get
    dsimp only
    rw [hget1]
    simp only [ne_eq, not_true_eq_false, if_false]
    simp [hget2, hget3]
  · unfold CacheManager.get
    dsimp only
    rw [hget1]
    simp only [ne_eq, not_true_eq_false, if_false]
    simp [hget2, hget3, hget1]
  · unfold CacheManager.get
    dsimp only
    rw [hget1]
    simp only [ne_eq, not_true_eq_false, if_false]
    simp [hget2, hget3, hget1]
  · intro c t he hst
    unfold L2Cache.get
    simp [he, hst]

/-- Witness for C10 at a fresh manager with L2 enabled: `set("k", None,
ttl=60)` then `get("k")` at time 5 returns absent with one tier-1 miss,
though every tier holds an entry for "k". -/
theorem cached_none_invisible_witness :
    (((CacheManager.init 1000 true 3600).l3_cache.table.map Prod.fst).Nodup) ∧
    (alookup (((CacheManager.init 1000 true 3600).set 0 "k" PyVal.none
        (some 60) [1, 2, 3]).l1_cache.cache) "k" = some PyVal.none) ∧
    (alookup (((CacheManager.init 1000 true 3600).set 0 "k" PyVal.none
        (some 60) [1, 2, 3]).l2_cache.store) ("pm_intel:" ++ "k")
      = some ("null", (CacheManager.init 1000 true 3600).l2_cache.ttl)) ∧
    (alookup (((CacheManager.init 1000 true 3600).set 0 "k" PyVal.none
        (some 60) [1, 2, 3]).l3_cache.table) "k"
      = some { value := "null", expires_at := L3Cache.expiryOf 0 (some 60),
               created_at := 0 }) ∧
    ((((CacheManager.init 1000 true 3600).set 0 "k" PyVal.none (some 60)
        [1, 2, 3]).get 5 "k").2 = PyVal.none) ∧
    ((((CacheManager.init 1000 true 3600).set 0 "k" PyVal.none (some 60)
        [1, 2, 3]).get 5 "k").1.l1_cache.stats.misses
      = ((CacheManager.init 1000 true 3600).set 0 "k" PyVal.none (some 60)
          [1, 2, 3]).l1_cache.stats.misses + 1) :=
  ⟨by simp [CacheManager.init, L3Cache.init],
   (cached_none_invisible (CacheManager.init 1000 true 3600) 0 5 "k" (some 60)
     (by simp [CacheManager.init, L3Cache.init])).1,
   (cached_none_invisible (CacheManager.init 1000 true 3600) 0 5 "k" (some 60)
     (by simp [CacheManager.init, L3Cache.init])).2.1 rfl,
   (cached_none_invisible (CacheManager.init 1000 true 3600) 0 5 "k" (some 60)
     (by simp [CacheManager.init, L3Cache.init])).2.2.1,
   (cached_none_invisible (CacheManager.init 1000 true 3600) 0 5 "k" (some 60)
     (by simp [CacheManager.init, L3Cache.init])).2.2.2.1,
   (cached_none_invisible (CacheManager.init 1000 true 3600) 0 5 "k" (some 60)
     (by simp [CacheManager.init, L3Cache.init])).2.2.2.2.1⟩

/-- Concrete processor used to witness retry termination: base batch
size 50, wait 0.5 s, max_retries = 3, one registered kind "op" holding a
single submitted item. -/
def retryWitnessBP : BatchProcessor :=
  { BatchProcessor.init 50 (1 / 2) 3 true with
    processors := ["op"]
    pending := [("op", [{ id := "i1", operation := "op", params := [],
                          timestamp := 0, retry_count := 0 }])] }

/-- Witness for C3 at `retryWitnessBP`. -/
theorem retry_termination_witness :
    (alookup retryWitnessBP.pending "op" =
        some [{ id := "i1", operation := "op", params := [], timestamp := 0,
                retry_count := 0 }]) ∧
    (([{ id := "i1", operation := "op", params := [], timestamp := 0,
         retry_count := 0 }] : List BatchItem) ≠ []) ∧
    (∀ i ∈ ([{ id := "i1", operation := "op", params := [], timestamp := 0,
               retry_count := 0 }] : List BatchItem), i.operation = "op") ∧
    (∀ i ∈ ([{ id := "i1", operation := "op", params := [], timestamp := 0,
               retry_count := 0 }] : List BatchItem), i.retry_count = 0) ∧
    (((retryWitnessBP.failRun "op" (retryWitnessBP.max_retries + 1)).2.map
          (fun i => i.id) =
        ([{ id := "i1", operation := "op", params := [], timestamp := 0,
            retry_count := 0 }] : List BatchItem).map (fun i => i.id)) ∧
     (∀ i ∈ (retryWitnessBP.failRun "op" (retryWitnessBP.max_retries + 1)).2,
        i.retry_count = retryWitnessBP.max_retries) ∧
     (∀ k, k ≤ retryWitnessBP.max_retries →
        (retryWitnessBP.failRun "op" k).2 = []) ∧
     (∀ e, (retryWitnessBP.failRun "op"
          (retryWitnessBP.max_retries + 1 + e)).2.map (fun i => i.id) =
        ([{ id := "i1", operation := "op", params := [], timestamp := 0,
            retry_count := 0 }] : List BatchItem).map (fun i => i.id))) :=
  ⟨by decide, by decide, by decide, by decide,
   retry_termination retryWitnessBP "op" _ (by decide) (by decide)
     (by decide) (by decide)⟩

/-- **C6** — For a resource class whose admission gate has `N` free
slots, a sequence of `N + 1` non-waiting acquires admits exactly the
first `N` and rejects the `(N+1)`th (returning `false` without
blocking); after a single release of that class, the next non-waiting
acquire succeeds. -/
theorem gate_saturation (m : ResourceManager) (now : ℚ) (cls : String) (N : Nat)
    (h : alookup m.semaphores cls = some N) :
    (m.acquireRunNoWait now cls (N + 1)).2 = List.replicate N true ++ [false] ∧
    (((m.acquireRunNoWait now cls (N + 1)).1.release cls).acquireNoWait
        now cls).2 = true := by
  obtain ⟨h1, h2⟩ := ResourceManager.acquireRun_saturates N m now cls h
  refine ⟨h1, ?_⟩
  have h3 := ResourceManager.release_slots _ cls 0 h2
  exact (ResourceManager.acquireNoWait_slots_succ _ now cls 0 h3).1

/-- Witness for C6: the preconfigured "assistant" class of a fresh
manager has maxConcurrent = 10; 11 non-waiting acquires admit 10 and
reject the 11th, and one release re-opens the gate. -/
theorem gate_saturation_witness :
    alookup (ResourceManager.init 0).semaphores "assistant" = some 10 ∧
    ((ResourceManager.init 0).acquireRunNoWait 0 "assistant" (10 + 1)).2 =
      List.replicate 10 true ++ [false] ∧
    ((((ResourceManager.init 0).acquireRunNoWait 0 "assistant"
        (10 + 1)).1.release "assistant").acquireNoWait 0 "assistant").2 = true :=
  ⟨by decide,
   gate_saturation (ResourceManager.init 0) 0 "assistant" 10 (by decide)⟩

end PM
